import Mathlib

/-!
AreaMap3D: a sliding 3D window over an unbounded integer grid.

Shallow embedding of `src/util/AreaMap3D.hpp` (`util::AreaMap3D<T, TCoord = int>`).

Modelling conventions

* `TCoord = int` is embedded as `Int`; `/` is C++ truncating division (`Int.tdiv`).
  The definitions named after the source methods take every `int` operation
  exactly: they describe the runs in which no `int` operation overflows.  Two
  operations overflow on arguments and states that are reached without any earlier
  overflow: the subtraction `x - offsetX` of the accessors and the product
  `width * height * length` that sizes the buffers.  For these the section
  "32-bit `int` arithmetic" gives the definitions with two's complement wrap-around
  (`wrapInt`), `new32`, `bufIndex32`, `isInside32`, `getIf32` and `get32`, and the
  theorems `new32_eq_new`, `bufIndex32_eq_bufIndex` and `accessors32_eq` say where they
  coincide with the exact ones.
  A negative `int` converted to the `size_t` length of a `std::vector` makes the
  vector constructor throw `std::length_error`.
* `std::vector<T>` is embedded as `List T`; `v[i]` is `List.getD v i default`
  and `v[i] = a` is `List.set v i a`.  `T{}` is `default`.
* `size_t valuesCount` is a `Nat` kept below `2 ^ 64`; `++` and `--` wrap.
* `outCallback` is a `std::function` that may be empty.  The embedding keeps
  whether one is installed and returns, from every operation that can fire it,
  the list of calls `(x, y, z, value)` in the order they are made.  In `translate`
  the callback receives a reference into the buffer that becomes the scratch
  buffer; that buffer is refilled with `T{}` before it is read again, so what the
  callback does to the value is not part of the state kept here.
* a vector is only ever indexed at `z * sizeY * sizeX + y * sizeX + x` for a local
  position inside the extents; `WellFormed` is the class invariant under which
  these positions exist in both buffers.
* the contextual conversion of a `T` to `bool` used by `set` is the field
  `truthy` of the class `Cell`.
-/

namespace util

/-- Value types usable as `T`: default constructible, with a conversion to `bool`. -/
class Cell (T : Type) extends Inhabited T where
  truthy : T → Bool

instance : Cell Int where
  default := 0
  truthy := fun v => v != 0

/-- One invocation `outCallback(x, y, z, value)`. -/
structure OutCall (T : Type) where
  x : Int
  y : Int
  z : Int
  value : T
  deriving DecidableEq, Repr

/-- The data members of `AreaMap3D`. -/
structure AreaMap3D (T : Type) where
  offsetX : Int
  offsetY : Int
  offsetZ : Int
  sizeX : Int
  sizeY : Int
  sizeZ : Int
  firstBuffer : List T
  secondBuffer : List T
  outCallback : Bool
  valuesCount : Nat
  deriving DecidableEq, Repr

/-- Modulus of `size_t` arithmetic. -/
def sizeMod : Nat := 2 ^ 64

/-- The statement `valuesCount++`. -/
def incCount (c : Nat) : Nat := (c + 1) % sizeMod

/-- The statement `valuesCount--`. -/
def decCount (c : Nat) : Nat := (c + (sizeMod - 1)) % sizeMod

/-- The buffer index `z * sizeY * sizeX + y * sizeX + x`, as a vector position. -/
def bufIndex (sizeX sizeY : Int) (x y z : Int) : Nat :=
  (z * sizeY * sizeX + y * sizeX + x).toNat

/-- The test `lx < 0 || ly < 0 || lz < 0 || lx >= sizeX || ly >= sizeY || lz >= sizeZ`. -/
def outOfExtents (sizeX sizeY sizeZ : Int) (lx ly lz : Int) : Bool :=
  decide (lx < 0) || decide (ly < 0) || decide (lz < 0) ||
    decide (lx ≥ sizeX) || decide (ly ≥ sizeY) || decide (lz ≥ sizeZ)

/-- The positions visited by
`for (z = 0; z < nz; z++) for (y = 0; y < ny; y++) for (x = 0; x < nx; x++)`,
in the order they are visited. -/
def loopCoords (nx ny nz : Int) : List (Int × Int × Int) :=
  (List.range nz.toNat).flatMap fun (z : Nat) =>
    (List.range ny.toNat).flatMap fun (y : Nat) =>
      (List.range nx.toNat).map fun (x : Nat) => ((x : Int), (y : Int), (z : Int))

variable {T : Type}

/-- The constructor `AreaMap3D(width, height, length)`, the product `width * height * length`
taken exactly; `new32` takes it in `int`, and `new32_eq_new` says when the two coincide. -/
def AreaMap3D.new [Cell T] (width height length : Int) : AreaMap3D T :=
  { offsetX := 0, offsetY := 0, offsetZ := 0
    sizeX := width, sizeY := height, sizeZ := length
    firstBuffer := List.replicate (width * height * length).toNat default
    secondBuffer := List.replicate (width * height * length).toNat default
    outCallback := false
    valuesCount := 0 }

/-- What the loop of `translate` carries: the scratch buffer, the count and the calls made. -/
structure TranslateAcc (T : Type) where
  second : List T
  count : Nat
  calls : List (OutCall T)

/-- One iteration of the innermost loop body of `translate`, at local position `p`. -/
def translateStep [Cell T] [DecidableEq T] (s : AreaMap3D T) (dx dy dz : Int)
    (acc : TranslateAcc T) (p : Int × Int × Int) : TranslateAcc T :=
  let x := p.1
  let y := p.2.1
  let z := p.2.2
  let value := s.firstBuffer.getD (bufIndex s.sizeX s.sizeY x y z) default
  let nx := x - dx
  let ny := y - dy
  let nz := z - dz
  if value = default then acc
  else if outOfExtents s.sizeX s.sizeY s.sizeZ nx ny nz then
    { second := acc.second
      count := decCount acc.count
      calls := if s.outCallback then
          acc.calls ++ [⟨x + s.offsetX, y + s.offsetY, z + s.offsetZ, value⟩]
        else acc.calls }
  else
    { acc with second := acc.second.set (bufIndex s.sizeX s.sizeY nx ny nz) value }

/-- The three nested loops of `translate`, started on the scratch buffer filled with `T{}`. -/
def translateLoop [Cell T] [DecidableEq T] (s : AreaMap3D T) (dx dy dz : Int) :
    TranslateAcc T :=
  (loopCoords s.sizeX s.sizeY s.sizeZ).foldl (translateStep s dx dy dz)
    { second := List.replicate s.secondBuffer.length default
      count := s.valuesCount
      calls := [] }

/-- The private method `translate(dx, dy, dz)`: the new state and the callback calls made.
The last statement of the source is `offsetX += dz`. -/
def AreaMap3D.translate [Cell T] [DecidableEq T] (s : AreaMap3D T) (dx dy dz : Int) :
    AreaMap3D T × List (OutCall T) :=
  if dx = 0 ∧ dy = 0 ∧ dz = 0 then (s, [])
  else
    let acc := translateLoop s dx dy dz
    ({ s with
        firstBuffer := acc.second
        secondBuffer := s.firstBuffer
        valuesCount := acc.count
        offsetX := s.offsetX + dx + dz
        offsetY := s.offsetY + dy }, acc.calls)

/-- The method `getIf(x, y, z)`: the cell pointed to, `none` for `nullptr`. -/
def AreaMap3D.getIf [Cell T] (s : AreaMap3D T) (x y z : Int) : Option T :=
  let lx := x - s.offsetX
  let ly := y - s.offsetY
  let lz := z - s.offsetZ
  if outOfExtents s.sizeX s.sizeY s.sizeZ lx ly lz then none
  else some (s.firstBuffer.getD (bufIndex s.sizeX s.sizeY lx ly lz) default)

/-- The method `get(x, y, z)`. -/
def AreaMap3D.get [Cell T] (s : AreaMap3D T) (x y z : Int) : T :=
  let lx := x - s.offsetX
  let ly := y - s.offsetY
  let lz := z - s.offsetZ
  if outOfExtents s.sizeX s.sizeY s.sizeZ lx ly lz then default
  else s.firstBuffer.getD (bufIndex s.sizeX s.sizeY lx ly lz) default

/-- The method `isInside(x, y, z)`, the subtractions taken exactly, as in `getIf`, `get`,
`set` and `require`; `isInside32` takes them in `int`, and `accessors32_eq` says when the
two coincide. -/
def AreaMap3D.isInside (s : AreaMap3D T) (x y z : Int) : Bool :=
  let lx := x - s.offsetX
  let ly := y - s.offsetY
  let lz := z - s.offsetZ
  !(outOfExtents s.sizeX s.sizeY s.sizeZ lx ly lz)

/-- The method `set(x, y, z, value)`: the new state and the returned flag. -/
def AreaMap3D.set [Cell T] (s : AreaMap3D T) (x y z : Int) (value : T) :
    AreaMap3D T × Bool :=
  let lx := x - s.offsetX
  let ly := y - s.offsetY
  let lz := z - s.offsetZ
  if outOfExtents s.sizeX s.sizeY s.sizeZ lx ly lz then (s, false)
  else
    let i := bufIndex s.sizeX s.sizeY lx ly lz
    let element := s.firstBuffer.getD i default
    let c1 := if Cell.truthy value && !Cell.truthy element then incCount s.valuesCount
      else s.valuesCount
    let c2 := if Cell.truthy element && !Cell.truthy value then decCount c1 else c1
    ({ s with firstBuffer := s.firstBuffer.set i value, valuesCount := c2 }, true)

/-- The method `setOutCallback`, for a non-empty callback. -/
def AreaMap3D.setOutCallback (s : AreaMap3D T) : AreaMap3D T :=
  { s with outCallback := true }

/-- The method `setCenter(centerX, centerY, centerZ)`.  `deltaX | deltaY | deltaZ` is
non-zero exactly when one of the three is. -/
def AreaMap3D.setCenter [Cell T] [DecidableEq T] (s : AreaMap3D T)
    (centerX centerY centerZ : Int) : AreaMap3D T × List (OutCall T) :=
  let deltaX := centerX - (s.offsetX + s.sizeX.tdiv 2)
  let deltaY := centerY - (s.offsetY + s.sizeY.tdiv 2)
  let deltaZ := centerZ - (s.offsetZ + s.sizeZ.tdiv 2)
  if deltaX ≠ 0 ∨ deltaY ≠ 0 ∨ deltaZ ≠ 0 then s.translate deltaX deltaY deltaZ
  else (s, [])

/-- What the loop of `clear` carries: the active buffer and the calls made. -/
structure ClearAcc (T : Type) where
  first : List T
  calls : List (OutCall T)

/-- One iteration of the innermost loop body of `clear`, at local position `p`. -/
def clearStep [Cell T] [DecidableEq T] (s : AreaMap3D T) (acc : ClearAcc T)
    (p : Int × Int × Int) : ClearAcc T :=
  let x := p.1
  let y := p.2.1
  let z := p.2.2
  let i := bufIndex s.sizeX s.sizeY x y z
  let value := acc.first.getD i default
  { first := acc.first.set i default
    calls := if s.outCallback && decide (value ≠ default) then
        acc.calls ++ [⟨x + s.offsetX, y + s.offsetY, z + s.offsetZ, value⟩]
      else acc.calls }

/-- The method `clear()`. -/
def AreaMap3D.clear [Cell T] [DecidableEq T] (s : AreaMap3D T) :
    AreaMap3D T × List (OutCall T) :=
  let acc := (loopCoords s.sizeX s.sizeY s.sizeZ).foldl (clearStep s)
    { first := s.firstBuffer, calls := [] }
  ({ s with firstBuffer := acc.first, valuesCount := 0 }, acc.calls)

/-- Running an operation after another, with the calls of both in order. -/
def andThen (r : AreaMap3D T × List (OutCall T))
    (f : AreaMap3D T → AreaMap3D T × List (OutCall T)) : AreaMap3D T × List (OutCall T) :=
  let r2 := f r.1
  (r2.1, r.2 ++ r2.2)

/-- The first block of `resize`: `if (newSizeX < sizeX) { ... }`. -/
def resizeShrinkX [Cell T] [DecidableEq T] (s : AreaMap3D T) (newSizeX : Int) :
    AreaMap3D T × List (OutCall T) :=
  if newSizeX < s.sizeX then
    let delta := s.sizeX - newSizeX
    andThen (andThen (s.translate (delta.tdiv 2) 0 0) (fun t => t.translate (-delta) 0 0))
      (fun t => t.translate delta 0 0)
  else (s, [])

/-- The second block of `resize`: `if (newSizeY < sizeY) { ... }`. -/
def resizeShrinkY [Cell T] [DecidableEq T] (s : AreaMap3D T) (newSizeY : Int) :
    AreaMap3D T × List (OutCall T) :=
  if newSizeY < s.sizeY then
    let delta := s.sizeY - newSizeY
    andThen (andThen (s.translate 0 (delta.tdiv 2) 0) (fun t => t.translate 0 (-delta) 0))
      (fun t => t.translate 0 delta 0)
  else (s, [])

/-- The third block of `resize`: `if (newSizeZ < sizeZ) { ... }`. -/
def resizeShrinkZ [Cell T] [DecidableEq T] (s : AreaMap3D T) (newSizeZ : Int) :
    AreaMap3D T × List (OutCall T) :=
  if newSizeZ < s.sizeZ then
    let delta := s.sizeZ - newSizeZ
    andThen (andThen (s.translate 0 0 (delta.tdiv 2)) (fun t => t.translate 0 0 (-delta)))
      (fun t => t.translate 0 0 delta)
  else (s, [])

/-- One iteration of the copy loop of `resize`, at local position `p`, reading the buffer
`old` laid out with the old extents. -/
def resizeCopyStep [Cell T] (sizeX sizeY newSizeX newSizeY : Int) (old : List T)
    (acc : List T) (p : Int × Int × Int) : List T :=
  acc.set (bufIndex newSizeX newSizeY p.1 p.2.1 p.2.2)
    (old.getD (bufIndex sizeX sizeY p.1 p.2.1 p.2.2) default)

/-- The reallocation part of `resize`: the loops run while `z < sizeZ && z < newSizeZ`
and likewise for `y` and `x`.  `newVolume` is taken exactly: for new extents that are not
negative and have a product that an `int` holds this is the value the source computes, and
the constructor of `std::vector` does not throw. -/
def resizeCopy [Cell T] (s : AreaMap3D T) (newSizeX newSizeY newSizeZ : Int) : AreaMap3D T :=
  let newVolume := newSizeX * newSizeY * newSizeZ
  let newFirstBuffer : List T := List.replicate newVolume.toNat default
  let newSecondBuffer : List T := List.replicate newVolume.toNat default
  let copied := (loopCoords (min s.sizeX newSizeX) (min s.sizeY newSizeY)
      (min s.sizeZ newSizeZ)).foldl
    (resizeCopyStep s.sizeX s.sizeY newSizeX newSizeY s.firstBuffer) newFirstBuffer
  { s with
      sizeX := newSizeX
      sizeY := newSizeY
      sizeZ := newSizeZ
      firstBuffer := copied
      secondBuffer := newSecondBuffer }

/-- The method `resize(newSizeX, newSizeY, newSizeZ)`. -/
def AreaMap3D.resize [Cell T] [DecidableEq T] (s : AreaMap3D T)
    (newSizeX newSizeY newSizeZ : Int) : AreaMap3D T × List (OutCall T) :=
  let r := andThen (andThen (resizeShrinkX s newSizeX) (fun t => resizeShrinkY t newSizeY))
    (fun t => resizeShrinkZ t newSizeZ)
  (resizeCopy r.1 newSizeX newSizeY newSizeZ, r.2)

/-- The accessor `getOffsetX()`. -/
def AreaMap3D.getOffsetX (s : AreaMap3D T) : Int := s.offsetX

/-- The accessor `getOffsetY()`. -/
def AreaMap3D.getOffsetY (s : AreaMap3D T) : Int := s.offsetY

/-- The accessor `getOffsetZ()`. -/
def AreaMap3D.getOffsetZ (s : AreaMap3D T) : Int := s.offsetZ

/-- The accessor `getWidth()`. -/
def AreaMap3D.getWidth (s : AreaMap3D T) : Int := s.sizeX

/-- The accessor `count()`. -/
def AreaMap3D.count (s : AreaMap3D T) : Nat := s.valuesCount

/-- The exception `std::invalid_argument` thrown by `require`. -/
inductive RequireError where
  | outOfWindow
  deriving DecidableEq, Repr

/-- The method `get(x, y, z, def)`, the overload of `get` with a default. -/
def AreaMap3D.getWithDefault [Cell T] [DecidableEq T] (s : AreaMap3D T) (x y z : Int)
    (dflt : T) : T :=
  match s.getIf x y z with
  | some value => if value = default then dflt else value
  | none => dflt

/-- The method `require(x, y, z)`: the state after the call and either the cell referred to
or the exception thrown.  The method is `const` and assigns no member. -/
def AreaMap3D.require [Cell T] (s : AreaMap3D T) (x y z : Int) :
    AreaMap3D T × Except RequireError T :=
  let lx := x - s.offsetX
  let ly := y - s.offsetY
  let lz := z - s.offsetZ
  if outOfExtents s.sizeX s.sizeY s.sizeZ lx ly lz then (s, Except.error RequireError.outOfWindow)
  else (s, Except.ok (s.firstBuffer.getD (bufIndex s.sizeX s.sizeY lx ly lz) default))

/-- The accessor `getHeight()`; the source returns `sizeX`. -/
def AreaMap3D.getHeight (s : AreaMap3D T) : Int := s.sizeX

/-- The accessor `getLenght()`. -/
def AreaMap3D.getLenght (s : AreaMap3D T) : Int := s.sizeZ

/-- The accessor `area()`: `sizeX * sizeY`. -/
def AreaMap3D.area (s : AreaMap3D T) : Int := s.sizeX * s.sizeY

/-! ## 32-bit `int` arithmetic -/

/-- The largest value of `int`. -/
def intMax : Int := 2147483647

/-- The smallest value of `int`. -/
def intMin : Int := -2147483648

/-- The value a 32-bit two's complement `int` holds after an operation whose exact result
is `v`. -/
def wrapInt (v : Int) : Int := (v + 2147483648) % 4294967296 - 2147483648

/-- The constructor `AreaMap3D(width, height, length)` with the product
`width * height * length` taken in `int`: `none` when the product is negative, which as a
`size_t` is a length that makes the constructor of `std::vector` throw. -/
def AreaMap3D.new32 [Cell T] (width height length : Int) : Option (AreaMap3D T) :=
  let volume := wrapInt (wrapInt (width * height) * length)
  if volume < 0 then none
  else some
    { offsetX := 0, offsetY := 0, offsetZ := 0
      sizeX := width, sizeY := height, sizeZ := length
      firstBuffer := List.replicate volume.toNat default
      secondBuffer := List.replicate volume.toNat default
      outCallback := false
      valuesCount := 0 }

/-- The index `z * sizeY * sizeX + y * sizeX + x` with every operation taken in `int`,
converted to the `size_t` that `operator[]` of `std::vector` takes. -/
def bufIndex32 (sizeX sizeY : Int) (x y z : Int) : Nat :=
  let i := wrapInt (wrapInt (wrapInt (wrapInt (z * sizeY) * sizeX) + wrapInt (y * sizeX)) + x)
  if i < 0 then (i + 18446744073709551616).toNat else i.toNat

/-- The method `isInside(x, y, z)` with the subtractions taken in `int`. -/
def AreaMap3D.isInside32 (s : AreaMap3D T) (x y z : Int) : Bool :=
  let lx := wrapInt (x - s.offsetX)
  let ly := wrapInt (y - s.offsetY)
  let lz := wrapInt (z - s.offsetZ)
  !(outOfExtents s.sizeX s.sizeY s.sizeZ lx ly lz)

/-- The method `getIf(x, y, z)` with the subtractions and the index taken in `int`. -/
def AreaMap3D.getIf32 [Cell T] (s : AreaMap3D T) (x y z : Int) : Option T :=
  let lx := wrapInt (x - s.offsetX)
  let ly := wrapInt (y - s.offsetY)
  let lz := wrapInt (z - s.offsetZ)
  if outOfExtents s.sizeX s.sizeY s.sizeZ lx ly lz then none
  else some (s.firstBuffer.getD (bufIndex32 s.sizeX s.sizeY lx ly lz) default)

/-- The method `get(x, y, z)` with the subtractions and the index taken in `int`. -/
def AreaMap3D.get32 [Cell T] (s : AreaMap3D T) (x y z : Int) : T :=
  let lx := wrapInt (x - s.offsetX)
  let ly := wrapInt (y - s.offsetY)
  let lz := wrapInt (z - s.offsetZ)
  if outOfExtents s.sizeX s.sizeY s.sizeZ lx ly lz then default
  else s.firstBuffer.getD (bufIndex32 s.sizeX s.sizeY lx ly lz) default

/-! ## Specification vocabulary -/

/-- The cell of `buf`, a buffer laid out with extents `sx`, `sy`, at local position `p`. -/
def cellAt [Cell T] (sx sy : Int) (buf : List T) (p : Int × Int × Int) : T :=
  buf.getD (bufIndex sx sy p.1 p.2.1 p.2.2) default

/-- Local position `p` moved back by the delta `d`: `(x - dx, y - dy, z - dz)`. -/
def shiftBack (d p : Int × Int × Int) : Int × Int × Int :=
  (p.1 - d.1, p.2.1 - d.2.1, p.2.2 - d.2.2)

/-- The cell at `p` is non-empty and leaves the extents when moved back by `d`. -/
def isEvicted [Cell T] [DecidableEq T] (s : AreaMap3D T) (d p : Int × Int × Int) : Bool :=
  decide (cellAt s.sizeX s.sizeY s.firstBuffer p ≠ default) &&
    outOfExtents s.sizeX s.sizeY s.sizeZ (p.1 - d.1) (p.2.1 - d.2.1) (p.2.2 - d.2.2)

/-- The cell at `p` is non-empty and stays inside the extents when moved back by `d`. -/
def isRetained [Cell T] [DecidableEq T] (s : AreaMap3D T) (d p : Int × Int × Int) : Bool :=
  decide (cellAt s.sizeX s.sizeY s.firstBuffer p ≠ default) &&
    !outOfExtents s.sizeX s.sizeY s.sizeZ (p.1 - d.1) (p.2.1 - d.2.1) (p.2.2 - d.2.2)

/-- The callback call for the cell at local position `p` of the active buffer. -/
def outCallAt [Cell T] (s : AreaMap3D T) (p : Int × Int × Int) : OutCall T :=
  ⟨p.1 + s.offsetX, p.2.1 + s.offsetY, p.2.2 + s.offsetZ,
    cellAt s.sizeX s.sizeY s.firstBuffer p⟩

/-- Number of cells of a buffer that differ from `T{}`. -/
def countNonEmpty [Cell T] [DecidableEq T] (buf : List T) : Nat :=
  buf.countP fun v => decide (v ≠ default)

/-- Class invariant on the storage: extents are not negative and both buffers hold
`sizeX * sizeY * sizeZ` cells, a number a `size_t` can hold. -/
structure WellFormed (s : AreaMap3D T) : Prop where
  sizeX_nonneg : 0 ≤ s.sizeX
  sizeY_nonneg : 0 ≤ s.sizeY
  sizeZ_nonneg : 0 ≤ s.sizeZ
  first_length : s.firstBuffer.length = (s.sizeX * s.sizeY * s.sizeZ).toNat
  second_length : s.secondBuffer.length = (s.sizeX * s.sizeY * s.sizeZ).toNat
  volume_lt : (s.sizeX * s.sizeY * s.sizeZ).toNat < sizeMod

/-- The centre of the window on the X axis, `offsetX + sizeX / 2`. -/
def AreaMap3D.centerX (s : AreaMap3D T) : Int := s.offsetX + s.sizeX.tdiv 2

/-- The centre of the window on the Y axis, `offsetY + sizeY / 2`. -/
def AreaMap3D.centerY (s : AreaMap3D T) : Int := s.offsetY + s.sizeY.tdiv 2

/-- The centre of the window on the Z axis, `offsetZ + sizeZ / 2`. -/
def AreaMap3D.centerZ (s : AreaMap3D T) : Int := s.offsetZ + s.sizeZ.tdiv 2

/-- Both buffers hold exactly `sizeX * sizeY * sizeZ` cells, and no extent is negative. -/
structure BuffersSized (s : AreaMap3D T) : Prop where
  sizeX_nonneg : 0 ≤ s.sizeX
  sizeY_nonneg : 0 ≤ s.sizeY
  sizeZ_nonneg : 0 ≤ s.sizeZ
  first_length : s.firstBuffer.length = (s.sizeX * s.sizeY * s.sizeZ).toNat
  second_length : s.secondBuffer.length = (s.sizeX * s.sizeY * s.sizeZ).toNat

/-- The states reachable through the public interface from a constructor call with
extents that are not negative and have a product that an `int` holds: `set`,
`setOutCallback`, `clear`, `setCenter`, and `resize` to extents that are not negative and
have a product that an `int` holds. -/
inductive ReachableInt [Cell T] [DecidableEq T] : AreaMap3D T → Prop
  | new (width height length : Int) (s : AreaMap3D T) : 0 ≤ width → 0 ≤ height →
      0 ≤ length → width * height * length ≤ intMax →
      AreaMap3D.new32 width height length = some s → ReachableInt s
  | set (s : AreaMap3D T) (x y z : Int) (v : T) : ReachableInt s →
      ReachableInt (s.set x y z v).1
  | setOutCallback (s : AreaMap3D T) : ReachableInt s → ReachableInt s.setOutCallback
  | clear (s : AreaMap3D T) : ReachableInt s → ReachableInt s.clear.1
  | setCenter (s : AreaMap3D T) (cx cy cz : Int) : ReachableInt s →
      ReachableInt (s.setCenter cx cy cz).1
  | resize (s : AreaMap3D T) (nx ny nz : Int) : ReachableInt s → 0 ≤ nx → 0 ≤ ny →
      0 ≤ nz → nx * ny * nz ≤ intMax → ReachableInt (s.resize nx ny nz).1

/-- Every buffer index computed from a local position inside the extents exists in both
buffers, and two different positions inside the extents have different indices. -/
def IndexSafe (s : AreaMap3D T) : Prop :=
  BuffersSized s ∧
    (∀ x y z : Int, outOfExtents s.sizeX s.sizeY s.sizeZ x y z = false →
      bufIndex s.sizeX s.sizeY x y z < s.firstBuffer.length ∧
        bufIndex s.sizeX s.sizeY x y z < s.secondBuffer.length) ∧
    (∀ x y z x' y' z' : Int, outOfExtents s.sizeX s.sizeY s.sizeZ x y z = false →
      outOfExtents s.sizeX s.sizeY s.sizeZ x' y' z' = false →
      bufIndex s.sizeX s.sizeY x y z = bufIndex s.sizeX s.sizeY x' y' z' →
      x = x' ∧ y = y' ∧ z = z')

/-- The state on which the copy loop of `resize` runs: the one the three shrinking blocks
leave. -/
def resizeShrunk [Cell T] [DecidableEq T] (s : AreaMap3D T) (newSizeX newSizeY newSizeZ : Int) :
    AreaMap3D T :=
  (andThen (andThen (resizeShrinkX s newSizeX) (fun t => resizeShrinkY t newSizeY))
    (fun t => resizeShrinkZ t newSizeZ)).1

/-! ## Concrete grids used as test inputs -/

/-- A fresh grid of extents (3,3,3) holding 7 at world coordinate (1,1,1). -/
def grid333 : AreaMap3D Int := ((AreaMap3D.new 3 3 3 : AreaMap3D Int).set 1 1 1 7).1

/-- A fresh grid of extents (5,5,5) with a callback installed, holding 9 at its centre
(2,2,2). -/
def grid555 : AreaMap3D Int :=
  ((AreaMap3D.new 5 5 5 : AreaMap3D Int).setOutCallback.set 2 2 2 9).1

/-- A fresh grid of extents (1,1,3) with a callback installed, holding 5 at (0,0,2). -/
def grid113 : AreaMap3D Int :=
  ((AreaMap3D.new 1 1 3 : AreaMap3D Int).setOutCallback.set 0 0 2 5).1

/-- A fresh grid of extents (2,1,1). -/
def grid211 : AreaMap3D Int := AreaMap3D.new 2 1 1

/-- A fresh grid of extents (3,1,1) with a callback installed, holding 4 on its low X edge
(0,0,0). -/
def grid311 : AreaMap3D Int :=
  ((AreaMap3D.new 3 1 1 : AreaMap3D Int).setOutCallback.set 0 0 0 4).1

/-- A fresh grid of extents (2,3,4). -/
def grid234 : AreaMap3D Int := AreaMap3D.new 2 3 4

/-- A fresh grid of extents (3,1,1) with no callback installed, holding 4 on its low X
edge (0,0,0). -/
def grid311Silent : AreaMap3D Int := ((AreaMap3D.new 3 1 1 : AreaMap3D Int).set 0 0 0 4).1

/-- A fresh grid of extents (3,1,1) after `setCenter(2147483647, 0, 0)`: its offset is
(2147483646, 0, 0), reached without any overflow. -/
def gridAtIntMax : AreaMap3D Int :=
  ((AreaMap3D.new 3 1 1 : AreaMap3D Int).setCenter 2147483647 0 0).1

/-- What the constructor leaves for the extents (65536, 65536, 1), whose product 2^32 is 0
as an `int`: buffers without a cell. -/
def gridOverflow : AreaMap3D Int :=
  { offsetX := 0, offsetY := 0, offsetZ := 0
    sizeX := 65536, sizeY := 65536, sizeZ := 1
    firstBuffer := []
    secondBuffer := []
    outCallback := false
    valuesCount := 0 }

/-! ## 32-bit `int` arithmetic: where it is exact -/

theorem wrapInt_eq_self (v : Int) (h1 : intMin ≤ v) (h2 : v ≤ intMax) : wrapInt v = v := by
  unfold intMin at h1
  unfold intMax at h2
  unfold wrapInt
  omega

theorem wrapInt_range (v : Int) : intMin ≤ wrapInt v ∧ wrapInt v ≤ intMax := by
  unfold intMin intMax wrapInt
  omega

theorem wrapInt_modEq (v : Int) : wrapInt v ≡ v [ZMOD 4294967296] := by
  unfold wrapInt Int.ModEq
  omega

theorem wrapInt_congr {a b : Int} (h : a ≡ b [ZMOD 4294967296]) : wrapInt a = wrapInt b := by
  unfold Int.ModEq at h
  unfold wrapInt
  omega

theorem wrapInt_mul_wrapInt (a b : Int) : wrapInt (wrapInt a * b) = wrapInt (a * b) :=
  wrapInt_congr ((wrapInt_modEq a).mul_right b)

/-- For extents that are not negative and have a product that an `int` holds, the
constructor in `int` arithmetic returns, and returns what the exact one does. -/
theorem new32_eq_new [Cell T] (width height length : Int) (hw : 0 ≤ width) (hh : 0 ≤ height)
    (hl : 0 ≤ length) (hv : width * height * length ≤ intMax) :
    (AreaMap3D.new32 width height length : Option (AreaMap3D T)) =
      some (AreaMap3D.new width height length) := by
  have h0 : 0 ≤ width * height * length := mul_nonneg (mul_nonneg hw hh) hl
  have hwrap : wrapInt (wrapInt (width * height) * length) = width * height * length := by
    rw [wrapInt_mul_wrapInt]
    exact wrapInt_eq_self _ (by unfold intMin; omega) hv
  unfold AreaMap3D.new32 AreaMap3D.new
  simp only [hwrap]
  rw [if_neg (by omega)]

/-! ## Arithmetic of the buffer layout -/

theorem outOfExtents_eq_false {sx sy sz x y z : Int} :
    outOfExtents sx sy sz x y z = false ↔
      (0 ≤ x ∧ x < sx) ∧ (0 ≤ y ∧ y < sy) ∧ (0 ≤ z ∧ z < sz) := by
  simp [outOfExtents]
  constructor <;> intro h <;> omega

theorem outOfExtents_eq_true {sx sy sz x y z : Int} :
    outOfExtents sx sy sz x y z = true ↔
      ¬ ((0 ≤ x ∧ x < sx) ∧ (0 ≤ y ∧ y < sy) ∧ (0 ≤ z ∧ z < sz)) := by
  rw [← outOfExtents_eq_false]; simp

theorem mul_add_unique {n a b x y : Int} (hx : 0 ≤ x) (hxn : x < n) (hy : 0 ≤ y)
    (hyn : y < n) (h : a * n + x = b * n + y) : a = b ∧ x = y := by
  have hab : a = b := by
    rcases lt_trichotomy a b with h1 | h1 | h1
    · exfalso
      have : (b - a) * n ≥ 1 * n := by
        apply mul_le_mul_of_nonneg_right <;> omega
      linarith
    · exact h1
    · exfalso
      have : (a - b) * n ≥ 1 * n := by
        apply mul_le_mul_of_nonneg_right <;> omega
      linarith
  subst hab
  exact ⟨rfl, by linarith⟩

theorem index_nonneg {sx sy x y z : Int} (hx : 0 ≤ x) (hxn : x < sx) (hy : 0 ≤ y)
    (hyn : y < sy) (hz : 0 ≤ z) : 0 ≤ z * sy * sx + y * sx + x := by
  have hsx : 0 ≤ sx := by omega
  have hsy : 0 ≤ sy := by omega
  have h1 : 0 ≤ z * sy * sx := mul_nonneg (mul_nonneg hz hsy) hsx
  have h2 : 0 ≤ y * sx := mul_nonneg hy hsx
  linarith

theorem index_lt {sx sy sz x y z : Int} (hx : 0 ≤ x) (hxn : x < sx) (hy : 0 ≤ y)
    (hyn : y < sy) (hzn : z < sz) :
    z * sy * sx + y * sx + x < sx * sy * sz := by
  have h1 : (y + 1) * sx ≤ sy * sx := by
    apply mul_le_mul_of_nonneg_right <;> omega
  have h2 : (z + 1) * (sy * sx) ≤ sz * (sy * sx) := by
    apply mul_le_mul_of_nonneg_right
    · omega
    · have : 0 ≤ sy := by omega
      have : 0 ≤ sx := by omega
      positivity
  nlinarith

theorem bufIndex_lt {sx sy sz x y z : Int}
    (h : outOfExtents sx sy sz x y z = false) :
    bufIndex sx sy x y z < (sx * sy * sz).toNat := by
  obtain ⟨⟨hx, hxn⟩, ⟨hy, hyn⟩, hz, hzn⟩ := outOfExtents_eq_false.1 h
  have h1 := index_lt hx hxn hy hyn hzn
  have h0 := index_nonneg hx hxn hy hyn hz
  unfold bufIndex
  omega

theorem bufIndex_inj {sx sy sz x y z x' y' z' : Int}
    (h : outOfExtents sx sy sz x y z = false)
    (h' : outOfExtents sx sy sz x' y' z' = false)
    (he : bufIndex sx sy x y z = bufIndex sx sy x' y' z') :
    x = x' ∧ y = y' ∧ z = z' := by
  obtain ⟨⟨hx, hxn⟩, ⟨hy, hyn⟩, hz, hzn⟩ := outOfExtents_eq_false.1 h
  obtain ⟨⟨hx', hxn'⟩, ⟨hy', hyn'⟩, hz', hzn'⟩ := outOfExtents_eq_false.1 h'
  have h0 := index_nonneg hx hxn hy hyn hz
  have h0' := index_nonneg hx' hxn' hy' hyn' hz'
  unfold bufIndex at he
  have e : z * sy * sx + y * sx + x = z' * sy * sx + y' * sx + x' := by omega
  have e1 : (z * sy + y) * sx + x = (z' * sy + y') * sx + x' := by linarith
  obtain ⟨e2, e3⟩ := mul_add_unique hx hxn hx' hxn' e1
  obtain ⟨e4, e5⟩ := mul_add_unique hy hyn hy' hyn' e2
  exact ⟨e3, e5, e4⟩

theorem wrapInt_index_eq (sx sy x y z : Int) :
    wrapInt (wrapInt (wrapInt (wrapInt (z * sy) * sx) + wrapInt (y * sx)) + x) =
      wrapInt (z * sy * sx + y * sx + x) := by
  apply wrapInt_congr
  have h1 : wrapInt (wrapInt (z * sy) * sx) ≡ z * sy * sx [ZMOD 4294967296] :=
    (wrapInt_modEq _).trans ((wrapInt_modEq _).mul_right sx)
  have h2 : wrapInt (y * sx) ≡ y * sx [ZMOD 4294967296] := wrapInt_modEq _
  exact ((wrapInt_modEq _).trans (h1.add h2)).add_right x

/-- For a local position inside extents whose product an `int` holds, the index in `int`
arithmetic is the exact one. -/
theorem bufIndex32_eq_bufIndex {sx sy sz x y z : Int} (hvol : sx * sy * sz ≤ intMax)
    (h : outOfExtents sx sy sz x y z = false) : bufIndex32 sx sy x y z = bufIndex sx sy x y z := by
  obtain ⟨⟨hx, hxn⟩, ⟨hy, hyn⟩, hz, hzn⟩ := outOfExtents_eq_false.1 h
  have h0 := index_nonneg hx hxn hy hyn hz
  have h1 := index_lt hx hxn hy hyn hzn
  have hw : wrapInt (z * sy * sx + y * sx + x) = z * sy * sx + y * sx + x :=
    wrapInt_eq_self _ (by unfold intMin; omega) (by omega)
  unfold bufIndex32 bufIndex
  dsimp only
  rw [wrapInt_index_eq, hw, if_neg (by omega)]

/-! ## The loop positions -/

theorem mem_loopCoords {nx ny nz : Int} {p : Int × Int × Int} :
    p ∈ loopCoords nx ny nz ↔ outOfExtents nx ny nz p.1 p.2.1 p.2.2 = false := by
  obtain ⟨x, y, z⟩ := p
  rw [outOfExtents_eq_false]
  simp only [loopCoords, List.mem_flatMap, List.mem_map, List.mem_range, Prod.mk.injEq]
  constructor
  · rintro ⟨c, hc, b, hb, a, ha, rfl, rfl, rfl⟩
    omega
  · rintro ⟨⟨hx, hxn⟩, ⟨hy, hyn⟩, hz, hzn⟩
    exact ⟨z.toNat, by omega, y.toNat, by omega, x.toNat, by omega, by omega, by omega, by omega⟩

theorem nodup_loopCoords (nx ny nz : Int) : (loopCoords nx ny nz).Nodup := by
  unfold loopCoords
  rw [List.nodup_flatMap]
  refine ⟨fun z _ => ?_, ?_⟩
  · rw [List.nodup_flatMap]
    refine ⟨fun y _ => ?_, ?_⟩
    · apply List.Nodup.map _ (List.nodup_range _)
      intro a b hab
      simpa using hab
    · apply List.Nodup.pairwise_of_forall_ne (List.nodup_range _)
      intro a _ b _ hab
      simp only [Function.onFun, List.Disjoint, List.mem_map]
      rintro p ⟨i, _, rfl⟩ ⟨j, _, hj⟩
      simp at hj
      omega
  · apply List.Nodup.pairwise_of_forall_ne (List.nodup_range _)
    intro a _ b _ hab
    simp only [Function.onFun, List.Disjoint, List.mem_flatMap, List.mem_map]
    rintro p ⟨i, _, k, _, rfl⟩ ⟨j, _, l, _, hj⟩
    simp at hj
    omega

/-! ## Vector reads and writes -/

theorem getD_set_eq (l : List T) (i : Nat) (a d : T) (h : i < l.length) :
    (l.set i a).getD i d = a := by
  simp [List.getD_eq_getElem?_getD, List.getElem?_set, h]

theorem getD_set_ne (l : List T) {i j : Nat} (a d : T) (h : i ≠ j) :
    (l.set i a).getD j d = l.getD j d := by
  simp [List.getD_eq_getElem?_getD, List.getElem?_set, h]

theorem getD_replicate_default (n i : Nat) (d : T) :
    (List.replicate n d).getD i d = d := by
  simp only [List.getD_eq_getElem?_getD, List.getElem?_replicate]
  split <;> rfl

/-! ## The loop of `translate` -/

section TranslateLoop

variable [Cell T] [DecidableEq T]

theorem translateStep_second (s : AreaMap3D T) (d : Int × Int × Int) (acc : TranslateAcc T)
    (p : Int × Int × Int) :
    (translateStep s d.1 d.2.1 d.2.2 acc p).second =
      if isRetained s d p then
        acc.second.set (bufIndex s.sizeX s.sizeY (p.1 - d.1) (p.2.1 - d.2.1) (p.2.2 - d.2.2))
          (cellAt s.sizeX s.sizeY s.firstBuffer p)
      else acc.second := by
  unfold translateStep isRetained cellAt
  by_cases hv : s.firstBuffer.getD (bufIndex s.sizeX s.sizeY p.1 p.2.1 p.2.2) default = default
  · simp [hv, -List.getD_eq_getElem?_getD]
  · by_cases ho : outOfExtents s.sizeX s.sizeY s.sizeZ (p.1 - d.1) (p.2.1 - d.2.1) (p.2.2 - d.2.2)
        = true
    · simp [hv, ho, -List.getD_eq_getElem?_getD]
    · simp [hv, ho, -List.getD_eq_getElem?_getD]

theorem translateStep_count (s : AreaMap3D T) (d : Int × Int × Int) (acc : TranslateAcc T)
    (p : Int × Int × Int) :
    (translateStep s d.1 d.2.1 d.2.2 acc p).count =
      if isEvicted s d p then decCount acc.count else acc.count := by
  unfold translateStep isEvicted cellAt
  by_cases hv : s.firstBuffer.getD (bufIndex s.sizeX s.sizeY p.1 p.2.1 p.2.2) default = default
  · simp [hv, -List.getD_eq_getElem?_getD]
  · by_cases ho : outOfExtents s.sizeX s.sizeY s.sizeZ (p.1 - d.1) (p.2.1 - d.2.1) (p.2.2 - d.2.2)
        = true
    · simp [hv, ho, -List.getD_eq_getElem?_getD]
    · simp [hv, ho, -List.getD_eq_getElem?_getD]

theorem translateStep_calls (s : AreaMap3D T) (d : Int × Int × Int) (acc : TranslateAcc T)
    (p : Int × Int × Int) :
    (translateStep s d.1 d.2.1 d.2.2 acc p).calls =
      if isEvicted s d p && s.outCallback then acc.calls ++ [outCallAt s p] else acc.calls := by
  unfold translateStep isEvicted cellAt outCallAt cellAt
  by_cases hv : s.firstBuffer.getD (bufIndex s.sizeX s.sizeY p.1 p.2.1 p.2.2) default = default
  · simp [hv, -List.getD_eq_getElem?_getD]
  · by_cases ho : outOfExtents s.sizeX s.sizeY s.sizeZ (p.1 - d.1) (p.2.1 - d.2.1) (p.2.2 - d.2.2)
        = true
    · simp [hv, ho, -List.getD_eq_getElem?_getD]
    · simp [hv, ho, -List.getD_eq_getElem?_getD]

theorem foldl_translateStep_calls (s : AreaMap3D T) (d : Int × Int × Int)
    (l : List (Int × Int × Int)) (acc : TranslateAcc T) :
    (l.foldl (translateStep s d.1 d.2.1 d.2.2) acc).calls =
      acc.calls ++ if s.outCallback then (l.filter (isEvicted s d)).map (outCallAt s) else [] := by
  induction l generalizing acc with
  | nil => simp
  | cons a l ih =>
    rw [List.foldl_cons, ih, translateStep_calls]
    by_cases he : isEvicted s d a = true <;> by_cases hc : s.outCallback = true <;>
      simp [he, hc, List.filter_cons]

theorem foldl_translateStep_count (s : AreaMap3D T) (d : Int × Int × Int)
    (l : List (Int × Int × Int)) (acc : TranslateAcc T) :
    (l.foldl (translateStep s d.1 d.2.1 d.2.2) acc).count =
      decCount^[(l.filter (isEvicted s d)).length] acc.count := by
  induction l generalizing acc with
  | nil => simp
  | cons a l ih =>
    rw [List.foldl_cons, ih, translateStep_count]
    by_cases he : isEvicted s d a = true
    · rw [List.filter_cons, if_pos he, if_pos he, List.length_cons, Function.iterate_succ_apply]
    · rw [List.filter_cons, if_neg he, if_neg he]

theorem foldl_translateStep_length (s : AreaMap3D T) (d : Int × Int × Int)
    (l : List (Int × Int × Int)) (acc : TranslateAcc T) :
    (l.foldl (translateStep s d.1 d.2.1 d.2.2) acc).second.length = acc.second.length := by
  induction l generalizing acc with
  | nil => simp
  | cons a l ih =>
    rw [List.foldl_cons, ih, translateStep_second]
    split <;> simp

/-- A position of the scratch buffer that no retained cell of `l` is moved to keeps its
content through the loop. -/
theorem foldl_translateStep_untouched (s : AreaMap3D T) (d : Int × Int × Int)
    (l : List (Int × Int × Int)) (acc : TranslateAcc T) (i : Nat)
    (h : ∀ p ∈ l, isRetained s d p = true →
      bufIndex s.sizeX s.sizeY (p.1 - d.1) (p.2.1 - d.2.1) (p.2.2 - d.2.2) ≠ i) :
    (l.foldl (translateStep s d.1 d.2.1 d.2.2) acc).second.getD i default =
      acc.second.getD i default := by
  induction l generalizing acc with
  | nil => simp
  | cons a l ih =>
    rw [List.foldl_cons, ih _ (fun p hp => h p (List.mem_cons_of_mem _ hp)),
      translateStep_second]
    by_cases hr : isRetained s d a = true
    · simp only [hr, if_true]
      exact getD_set_ne _ _ _ (h a (List.mem_cons_self _ _) hr)
    · simp [hr]

theorem isRetained_iff (s : AreaMap3D T) (d p : Int × Int × Int) :
    isRetained s d p = true ↔ cellAt s.sizeX s.sizeY s.firstBuffer p ≠ default ∧
      outOfExtents s.sizeX s.sizeY s.sizeZ (p.1 - d.1) (p.2.1 - d.2.1) (p.2.2 - d.2.2) = false := by
  simp [isRetained]

theorem isEvicted_iff (s : AreaMap3D T) (d p : Int × Int × Int) :
    isEvicted s d p = true ↔ cellAt s.sizeX s.sizeY s.firstBuffer p ≠ default ∧
      outOfExtents s.sizeX s.sizeY s.sizeZ (p.1 - d.1) (p.2.1 - d.2.1) (p.2.2 - d.2.2) = true := by
  simp [isEvicted]

/-- Two retained cells are never moved to the same position of the scratch buffer. -/
theorem retained_target_inj (s : AreaMap3D T) (d p q : Int × Int × Int)
    (hp : isRetained s d p = true) (hq : isRetained s d q = true)
    (he : bufIndex s.sizeX s.sizeY (p.1 - d.1) (p.2.1 - d.2.1) (p.2.2 - d.2.2) =
      bufIndex s.sizeX s.sizeY (q.1 - d.1) (q.2.1 - d.2.1) (q.2.2 - d.2.2)) : p = q := by
  obtain ⟨h1, h2, h3⟩ := bufIndex_inj ((isRetained_iff s d p).1 hp).2
    ((isRetained_iff s d q).1 hq).2 he
  obtain ⟨x, y, z⟩ := p
  obtain ⟨x', y', z'⟩ := q
  simp only [Prod.mk.injEq]
  simp only at h1 h2 h3
  omega

/-- A retained cell of `l` is found, after the loop, at the position it is moved to. -/
theorem foldl_translateStep_written (s : AreaMap3D T) (d : Int × Int × Int)
    (l : List (Int × Int × Int)) (hl : l.Nodup) (acc : TranslateAcc T) (p : Int × Int × Int)
    (hp : p ∈ l) (hr : isRetained s d p = true)
    (hlen : bufIndex s.sizeX s.sizeY (p.1 - d.1) (p.2.1 - d.2.1) (p.2.2 - d.2.2) <
      acc.second.length) :
    (l.foldl (translateStep s d.1 d.2.1 d.2.2) acc).second.getD
        (bufIndex s.sizeX s.sizeY (p.1 - d.1) (p.2.1 - d.2.1) (p.2.2 - d.2.2)) default =
      cellAt s.sizeX s.sizeY s.firstBuffer p := by
  induction l generalizing acc with
  | nil => simp at hp
  | cons a l ih =>
    rw [List.nodup_cons] at hl
    rw [List.foldl_cons]
    rcases List.mem_cons.1 hp with rfl | hmem
    · rw [foldl_translateStep_untouched, translateStep_second]
      · simp only [hr, if_true]
        exact getD_set_eq _ _ _ _ hlen
      · intro q hq hqr he
        exact hl.1 (retained_target_inj s d q p hqr hr he ▸ hq)
    · apply ih hl.2 _ hmem
      rw [translateStep_second]
      split <;> simpa using hlen

end TranslateLoop

/-! ## What `translate` leaves in the active buffer -/

section TranslateBuffer

variable [Cell T] [DecidableEq T]

theorem translateLoop_length (s : AreaMap3D T) (dx dy dz : Int) :
    (translateLoop s dx dy dz).second.length = s.secondBuffer.length := by
  unfold translateLoop
  rw [foldl_translateStep_length s (dx, dy, dz)]
  simp

/-- After the loop the scratch buffer holds, at every local position `q` inside the extents,
the cell that the active buffer holds at `q + d`, and `T{}` when `q + d` is outside. -/
theorem translateLoop_cellAt (s : AreaMap3D T) (hs : WellFormed s) (dx dy dz : Int)
    (q : Int × Int × Int) (hq : outOfExtents s.sizeX s.sizeY s.sizeZ q.1 q.2.1 q.2.2 = false) :
    cellAt s.sizeX s.sizeY (translateLoop s dx dy dz).second q =
      if outOfExtents s.sizeX s.sizeY s.sizeZ (q.1 + dx) (q.2.1 + dy) (q.2.2 + dz) then default
      else cellAt s.sizeX s.sizeY s.firstBuffer (q.1 + dx, q.2.1 + dy, q.2.2 + dz) := by
  obtain ⟨qx, qy, qz⟩ := q
  simp only at hq ⊢
  have hback : ∀ p : Int × Int × Int, isRetained s (dx, dy, dz) p = true →
      bufIndex s.sizeX s.sizeY (p.1 - dx) (p.2.1 - dy) (p.2.2 - dz) =
        bufIndex s.sizeX s.sizeY qx qy qz → p = (qx + dx, qy + dy, qz + dz) := by
    intro p hp he
    obtain ⟨h1, h2, h3⟩ := bufIndex_inj ((isRetained_iff s _ p).1 hp).2 hq he
    obtain ⟨x, y, z⟩ := p
    simp only [Prod.mk.injEq]
    simp only at h1 h2 h3
    omega
  have huntouched : (∀ p ∈ loopCoords s.sizeX s.sizeY s.sizeZ,
      isRetained s (dx, dy, dz) p = true →
        bufIndex s.sizeX s.sizeY (p.1 - dx) (p.2.1 - dy) (p.2.2 - dz) ≠
          bufIndex s.sizeX s.sizeY qx qy qz) →
      cellAt s.sizeX s.sizeY (translateLoop s dx dy dz).second (qx, qy, qz) = default := by
    intro h
    unfold translateLoop cellAt
    rw [foldl_translateStep_untouched s (dx, dy, dz) _ _ _ h]
    exact getD_replicate_default _ _ _
  by_cases ho : outOfExtents s.sizeX s.sizeY s.sizeZ (qx + dx) (qy + dy) (qz + dz) = true
  · rw [if_pos ho]
    apply huntouched
    intro p hp hr he
    have := hback p hr he
    subst this
    rw [mem_loopCoords] at hp
    simp only at hp
    rw [hp] at ho
    exact Bool.noConfusion ho
  · rw [if_neg ho]
    have ho' : outOfExtents s.sizeX s.sizeY s.sizeZ (qx + dx) (qy + dy) (qz + dz) = false := by
      simpa using ho
    by_cases hv : cellAt s.sizeX s.sizeY s.firstBuffer (qx + dx, qy + dy, qz + dz) = default
    · rw [hv]
      apply huntouched
      intro p _ hr he
      have := hback p hr he
      subst this
      exact ((isRetained_iff s _ _).1 hr).1 hv
    · have hr : isRetained s (dx, dy, dz) (qx + dx, qy + dy, qz + dz) = true := by
        rw [isRetained_iff]
        refine ⟨hv, ?_⟩
        simpa using hq
      have hmem : (qx + dx, qy + dy, qz + dz) ∈ loopCoords s.sizeX s.sizeY s.sizeZ :=
        mem_loopCoords.2 ho'
      have hlen : bufIndex s.sizeX s.sizeY qx qy qz <
          (List.replicate s.secondBuffer.length (default : T)).length := by
        rw [List.length_replicate, hs.second_length]
        exact bufIndex_lt hq
      have hw := foldl_translateStep_written s (dx, dy, dz) _ (nodup_loopCoords _ _ _)
        { second := List.replicate s.secondBuffer.length default
          count := s.valuesCount
          calls := [] } (qx + dx, qy + dy, qz + dz) hmem hr
        (by simpa using hlen)
      simp only [add_sub_cancel_right] at hw
      exact hw

end TranslateBuffer

/-! ## Well-formedness of fresh grids -/

theorem wellFormed_new [Cell T] (width height length : Int) (hw : 0 ≤ width)
    (hh : 0 ≤ height) (hl : 0 ≤ length)
    (hv : (width * height * length).toNat < sizeMod) :
    WellFormed (AreaMap3D.new width height length : AreaMap3D T) where
  sizeX_nonneg := hw
  sizeY_nonneg := hh
  sizeZ_nonneg := hl
  first_length := by simp [AreaMap3D.new]
  second_length := by simp [AreaMap3D.new]
  volume_lt := hv

theorem wellFormed_set [Cell T] (s : AreaMap3D T) (hs : WellFormed s) (x y z : Int) (v : T) :
    WellFormed (s.set x y z v).1 := by
  unfold AreaMap3D.set
  dsimp only
  split
  · exact hs
  · exact ⟨hs.sizeX_nonneg, hs.sizeY_nonneg, hs.sizeZ_nonneg,
      by simpa using hs.first_length, hs.second_length, hs.volume_lt⟩

theorem wellFormed_setOutCallback (s : AreaMap3D T) (hs : WellFormed s) :
    WellFormed s.setOutCallback :=
  ⟨hs.sizeX_nonneg, hs.sizeY_nonneg, hs.sizeZ_nonneg, hs.first_length, hs.second_length,
    hs.volume_lt⟩

theorem wellFormed_grid333 : WellFormed grid333 :=
  wellFormed_set _ (wellFormed_new 3 3 3 (by decide) (by decide) (by decide) (by decide)) _ _ _ _

/-! ## C2: `set` followed by `get` -/

/-- C2: `set(x,y,z,v)` returns true exactly when `isInside(x,y,z)` held before the call, and
when it returns true then right afterwards `get(x,y,z) == v` and `isInside(x,y,z)` holds. -/
theorem set_get_roundtrip [Cell T] (s : AreaMap3D T) (hs : WellFormed s) (x y z : Int) (v : T) :
    (s.set x y z v).2 = s.isInside x y z ∧
      ((s.set x y z v).2 = true →
        (s.set x y z v).1.get x y z = v ∧ (s.set x y z v).1.isInside x y z = true) := by
  unfold AreaMap3D.set AreaMap3D.isInside AreaMap3D.get
  dsimp only
  by_cases ho : outOfExtents s.sizeX s.sizeY s.sizeZ (x - s.offsetX) (y - s.offsetY)
      (z - s.offsetZ) = true
  · simp [ho]
  · have ho' : outOfExtents s.sizeX s.sizeY s.sizeZ (x - s.offsetX) (y - s.offsetY)
        (z - s.offsetZ) = false := by simpa using ho
    have hlt := bufIndex_lt ho'
    rw [← hs.first_length] at hlt
    simp only [ho', Bool.false_eq_true, if_false, Bool.not_false, true_and, forall_const,
      and_true]
    exact getD_set_eq _ _ _ _ hlt

theorem set_get_roundtrip_witness :
    WellFormed grid333 ∧ (grid333.set 2 0 1 5).2 = true ∧
      ((grid333.set 2 0 1 5).2 = grid333.isInside 2 0 1 ∧
        ((grid333.set 2 0 1 5).2 = true →
          (grid333.set 2 0 1 5).1.get 2 0 1 = 5 ∧
            (grid333.set 2 0 1 5).1.isInside 2 0 1 = true)) :=
  ⟨wellFormed_grid333, by decide, set_get_roundtrip grid333 wellFormed_grid333 2 0 1 5⟩

/-! ## C3, C4: where `translate` puts the window -/

/-- Offsets after `translate`: the source ends with `offsetX += dx; offsetY += dy;
offsetX += dz`, so `offsetZ` never moves and `offsetX` also takes the Z delta. -/
theorem translate_offsets [Cell T] [DecidableEq T] (s : AreaMap3D T) (dx dy dz : Int) :
    (s.translate dx dy dz).1.offsetX = s.offsetX + dx + dz ∧
      (s.translate dx dy dz).1.offsetY = s.offsetY + dy ∧
      (s.translate dx dy dz).1.offsetZ = s.offsetZ := by
  unfold AreaMap3D.translate
  split
  · rename_i h
    obtain ⟨rfl, rfl, rfl⟩ := h
    simp
  · simp

theorem translate_sizes [Cell T] [DecidableEq T] (s : AreaMap3D T) (dx dy dz : Int) :
    (s.translate dx dy dz).1.sizeX = s.sizeX ∧ (s.translate dx dy dz).1.sizeY = s.sizeY ∧
      (s.translate dx dy dz).1.sizeZ = s.sizeZ := by
  unfold AreaMap3D.translate
  split <;> simp

/-- C3: on the fresh (3,3,3) grid holding 7 at (1,1,1), whose centre is (1,1,1),
`setCenter(1,1,2)` leaves the Z centre at 1 instead of 2 and moves the X centre to 2 instead
of keeping it at 1: the Z delta is added to `offsetX`. -/
theorem setCenter_z_moves_x_centre :
    grid333.centerX = 1 ∧ grid333.centerY = 1 ∧ grid333.centerZ = 1 ∧
      (grid333.setCenter 1 1 2).1.centerX = 2 ∧
      (grid333.setCenter 1 1 2).1.centerY = 1 ∧
      (grid333.setCenter 1 1 2).1.centerZ = 1 ∧
      (grid333.setCenter 1 1 2).1.getOffsetX = 1 ∧
      (grid333.setCenter 1 1 2).1.getOffsetZ = 0 := by
  decide

/-- C4: on the (3,3,3) grid holding 7 at world coordinate (1,1,1), `setCenter(1,1,2)` runs
`translate(0,0,1)`; world coordinate (1,1,1) is inside the window before and after, it read
7 before and reads empty after, and the 7 is now read at world coordinate (2,1,0). -/
theorem translate_z_loses_world_coordinate :
    grid333.isInside 1 1 1 = true ∧ grid333.get 1 1 1 = 7 ∧
      (grid333.setCenter 1 1 2).1 = (grid333.translate 0 0 1).1 ∧
      (grid333.setCenter 1 1 2).1.isInside 1 1 1 = true ∧
      (grid333.setCenter 1 1 2).1.get 1 1 1 = 0 ∧
      (grid333.setCenter 1 1 2).1.get 2 1 0 = 7 := by
  decide

/-! ## C8, C10: `resize` with a shrinking Z axis -/

set_option maxRecDepth 100000 in
/-- C8: on the (5,5,5) grid at the origin holding 9 only at its centre (2,2,2),
`resize(3,3,3)` fires no callback and gives `getWidth() == 3`, but the window ends at offset
(2,1,0): world coordinate (2,2,2) is inside it and reads empty, and the 9 is read at (3,2,1). -/
theorem resize_shrink_loses_centre_value :
    grid555.get 2 2 2 = 9 ∧
      (grid555.resize 3 3 3).2 = [] ∧
      (grid555.resize 3 3 3).1.getWidth = 3 ∧
      (grid555.resize 3 3 3).1.getOffsetX = 2 ∧
      (grid555.resize 3 3 3).1.getOffsetY = 1 ∧
      (grid555.resize 3 3 3).1.getOffsetZ = 0 ∧
      (grid555.resize 3 3 3).1.isInside 2 2 2 = true ∧
      (grid555.resize 3 3 3).1.get 2 2 2 = 0 ∧
      (grid555.resize 3 3 3).1.get 3 2 1 = 9 := by
  decide

/-- C10: on the (1,1,3) grid at the origin holding 5 only at world coordinate (0,0,2),
`resize(1,1,1)` keeps the band z = 1 and evicts the cell at z = 2, but the single callback
carries the coordinate (1,0,1), not (0,0,2). -/
theorem resize_shrink_z_reports_wrong_coordinate :
    grid113.get 0 0 2 = 5 ∧ grid113.count = 1 ∧
      (grid113.resize 1 1 1).2 = [⟨1, 0, 1, 5⟩] ∧
      (grid113.resize 1 1 1).2 ≠ [⟨0, 0, 2, 5⟩] := by
  decide

/-! ## C9: where `resize` puts the window -/

theorem andThen_fst (r : AreaMap3D T × List (OutCall T))
    (f : AreaMap3D T → AreaMap3D T × List (OutCall T)) : (andThen r f).1 = (f r.1).1 := rfl

theorem andThen_snd (r : AreaMap3D T × List (OutCall T))
    (f : AreaMap3D T → AreaMap3D T × List (OutCall T)) :
    (andThen r f).2 = r.2 ++ (f r.1).2 := rfl

section ResizeOffsets

variable [Cell T] [DecidableEq T]

theorem resizeShrinkX_frame (s : AreaMap3D T) (n : Int) :
    (resizeShrinkX s n).1.offsetX =
        s.offsetX + (if n < s.sizeX then (s.sizeX - n).tdiv 2 else 0) ∧
      (resizeShrinkX s n).1.offsetY = s.offsetY ∧
      (resizeShrinkX s n).1.offsetZ = s.offsetZ ∧
      (resizeShrinkX s n).1.sizeX = s.sizeX ∧
      (resizeShrinkX s n).1.sizeY = s.sizeY ∧
      (resizeShrinkX s n).1.sizeZ = s.sizeZ := by
  unfold resizeShrinkX
  split
  · simp only [andThen_fst, translate_offsets, translate_sizes]
    refine ⟨by ring, by ring, ?_⟩
    simp
  · simp

theorem resizeShrinkY_frame (s : AreaMap3D T) (n : Int) :
    (resizeShrinkY s n).1.offsetX = s.offsetX ∧
      (resizeShrinkY s n).1.offsetY =
        s.offsetY + (if n < s.sizeY then (s.sizeY - n).tdiv 2 else 0) ∧
      (resizeShrinkY s n).1.offsetZ = s.offsetZ ∧
      (resizeShrinkY s n).1.sizeX = s.sizeX ∧
      (resizeShrinkY s n).1.sizeY = s.sizeY ∧
      (resizeShrinkY s n).1.sizeZ = s.sizeZ := by
  unfold resizeShrinkY
  split
  · simp only [andThen_fst, translate_offsets, translate_sizes]
    refine ⟨by ring, by ring, ?_⟩
    simp
  · simp

/-- The Z block runs `translate(0, 0, d)` three times, and each adds `d` to `offsetX`. -/
theorem resizeShrinkZ_frame (s : AreaMap3D T) (n : Int) :
    (resizeShrinkZ s n).1.offsetX =
        s.offsetX + (if n < s.sizeZ then (s.sizeZ - n).tdiv 2 else 0) ∧
      (resizeShrinkZ s n).1.offsetY = s.offsetY ∧
      (resizeShrinkZ s n).1.offsetZ = s.offsetZ ∧
      (resizeShrinkZ s n).1.sizeX = s.sizeX ∧
      (resizeShrinkZ s n).1.sizeY = s.sizeY ∧
      (resizeShrinkZ s n).1.sizeZ = s.sizeZ := by
  unfold resizeShrinkZ
  split
  · simp only [andThen_fst, translate_offsets, translate_sizes]
    refine ⟨by ring, by ring, ?_⟩
    simp
  · simp

/-- Offsets and extents after `resize`. -/
theorem resize_frame (s : AreaMap3D T) (nx ny nz : Int) :
    (s.resize nx ny nz).1.offsetX =
        s.offsetX + (if nx < s.sizeX then (s.sizeX - nx).tdiv 2 else 0) +
          (if nz < s.sizeZ then (s.sizeZ - nz).tdiv 2 else 0) ∧
      (s.resize nx ny nz).1.offsetY =
        s.offsetY + (if ny < s.sizeY then (s.sizeY - ny).tdiv 2 else 0) ∧
      (s.resize nx ny nz).1.offsetZ = s.offsetZ ∧
      (s.resize nx ny nz).1.sizeX = nx ∧
      (s.resize nx ny nz).1.sizeY = ny ∧
      (s.resize nx ny nz).1.sizeZ = nz := by
  unfold AreaMap3D.resize resizeCopy
  simp only [andThen_fst, resizeShrinkX_frame, resizeShrinkY_frame, resizeShrinkZ_frame]
  simp

/-- C9, counterexample: shrinking the fresh (2,1,1) grid to (1,1,1) moves the X centre from
1 to 0. -/
theorem resize_centre_counterexample :
    (0 : Int) < 1 ∧ (1 : Int) < grid211.sizeX ∧
      ¬ ((grid211.resize 1 1 1).1.centerX = grid211.centerX) := by
  decide

/-- C9, amended: for a `resize` to extents that are not negative and have a product that an
`int` holds, so that the new buffers are allocated and the call returns: when the Y axis
shrinks (`0 < newSizeY < sizeY`), or the X axis shrinks while the Z axis does not, `resize`
advances the offset of that axis by `(oldSize - newSize) / 2`; the centre
`offset + size / 2` of that axis is then the same after the resize as before it unless the
old size is even and the new size is odd. -/
theorem resize_centre_amended (s : AreaMap3D T) (nx ny nz : Int) (hnx : 0 ≤ nx)
    (hny : 0 ≤ ny) (hnz : 0 ≤ nz) (hvol : nx * ny * nz ≤ intMax) :
    wrapInt (wrapInt (nx * ny) * nz) = nx * ny * nz ∧ 0 ≤ nx * ny * nz ∧
    (0 < ny → ny < s.sizeY →
      (s.resize nx ny nz).1.offsetY = s.offsetY + (s.sizeY - ny).tdiv 2 ∧
        (¬ (s.sizeY % 2 = 0 ∧ ny % 2 = 1) →
          (s.resize nx ny nz).1.centerY = s.centerY)) ∧
    (0 < nx → nx < s.sizeX → s.sizeZ ≤ nz →
      (s.resize nx ny nz).1.offsetX = s.offsetX + (s.sizeX - nx).tdiv 2 ∧
        (¬ (s.sizeX % 2 = 0 ∧ nx % 2 = 1) →
          (s.resize nx ny nz).1.centerX = s.centerX)) := by
  obtain ⟨hx, hy, -, hsx, hsy, -⟩ := resize_frame s nx ny nz
  have h0 : 0 ≤ nx * ny * nz := mul_nonneg (mul_nonneg hnx hny) hnz
  have hwrap : wrapInt (wrapInt (nx * ny) * nz) = nx * ny * nz := by
    rw [wrapInt_mul_wrapInt]
    exact wrapInt_eq_self _ (by unfold intMin; omega) hvol
  refine ⟨hwrap, h0, fun h0 h1 => ?_, fun h0 h1 h2 => ?_⟩
  · rw [if_pos h1] at hy
    refine ⟨hy, fun hpar => ?_⟩
    unfold AreaMap3D.centerY
    rw [hy, hsy, Int.tdiv_eq_ediv (by omega) (by decide), Int.tdiv_eq_ediv (by omega) (by decide),
      Int.tdiv_eq_ediv (by omega) (by decide)]
    omega
  · rw [if_pos h1, if_neg (by omega)] at hx
    rw [add_zero] at hx
    refine ⟨hx, fun hpar => ?_⟩
    unfold AreaMap3D.centerX
    rw [hx, hsx, Int.tdiv_eq_ediv (by omega) (by decide), Int.tdiv_eq_ediv (by omega) (by decide),
      Int.tdiv_eq_ediv (by omega) (by decide)]
    omega

theorem resize_centre_amended_witness :
    ((0 : Int) ≤ 1 ∧ (0 : Int) ≤ 3 ∧ (1 : Int) * 1 * 3 ≤ intMax) ∧
    ((0 : Int) < 1 ∧ (1 : Int) < grid333.sizeY ∧ ¬ (grid333.sizeY % 2 = 0 ∧ (1 : Int) % 2 = 1) ∧
      (grid333.resize 1 1 3).1.offsetY = grid333.offsetY + (grid333.sizeY - 1).tdiv 2 ∧
      (grid333.resize 1 1 3).1.centerY = grid333.centerY) ∧
    ((0 : Int) < 1 ∧ (1 : Int) < grid333.sizeX ∧ grid333.sizeZ ≤ 3 ∧
      ¬ (grid333.sizeX % 2 = 0 ∧ (1 : Int) % 2 = 1) ∧
      (grid333.resize 1 1 3).1.offsetX = grid333.offsetX + (grid333.sizeX - 1).tdiv 2 ∧
      (grid333.resize 1 1 3).1.centerX = grid333.centerX) :=
  ⟨⟨by decide, by decide, by decide⟩,
    ⟨by decide, by decide, by decide,
      ((resize_centre_amended grid333 1 1 3 (by decide) (by decide) (by decide)
        (by decide)).2.2.1 (by decide) (by decide)).1,
      ((resize_centre_amended grid333 1 1 3 (by decide) (by decide) (by decide)
        (by decide)).2.2.1 (by decide) (by decide)).2 (by decide)⟩,
    ⟨by decide, by decide, by decide, by decide,
      ((resize_centre_amended grid333 1 1 3 (by decide) (by decide) (by decide)
        (by decide)).2.2.2 (by decide) (by decide) (by decide)).1,
      ((resize_centre_amended grid333 1 1 3 (by decide) (by decide) (by decide)
        (by decide)).2.2.2 (by decide) (by decide) (by decide)).2 (by decide)⟩⟩

end ResizeOffsets

/-! ## The loop visits the buffer in ascending index order -/

theorem range_mul_eq_flatMap (a b : Nat) :
    List.range (a * b) =
      (List.range a).flatMap fun i => (List.range b).map fun j => i * b + j := by
  induction a with
  | zero => simp
  | succ a ih =>
    rw [Nat.succ_mul, List.range_add, ih, List.range_succ, List.flatMap_append]
    simp

theorem bufIndex_natCast (X Y x y z : Nat) :
    bufIndex (X : Int) (Y : Int) (x : Int) (y : Int) (z : Int) = z * (Y * X) + (y * X + x) := by
  unfold bufIndex
  have h : ((z : Int) * (Y : Int) * (X : Int) + (y : Int) * (X : Int) + (x : Int)) =
      ((z * (Y * X) + (y * X + x) : Nat) : Int) := by
    push_cast
    ring
  rw [h, Int.toNat_ofNat]

/-- The buffer indices of the loop positions, in loop order, are `0, 1, ..., volume - 1`. -/
theorem map_bufIndex_loopCoords {nx ny nz : Int} (hx : 0 ≤ nx) (hy : 0 ≤ ny) (hz : 0 ≤ nz) :
    (loopCoords nx ny nz).map (fun p => bufIndex nx ny p.1 p.2.1 p.2.2) =
      List.range (nx * ny * nz).toNat := by
  obtain ⟨X, rfl⟩ := Int.eq_ofNat_of_zero_le hx
  obtain ⟨Y, rfl⟩ := Int.eq_ofNat_of_zero_le hy
  obtain ⟨Z, rfl⟩ := Int.eq_ofNat_of_zero_le hz
  have hv : ((X : Int) * (Y : Int) * (Z : Int)).toNat = Z * (Y * X) := by
    have h : ((X : Int) * (Y : Int) * (Z : Int)) = ((Z * (Y * X) : Nat) : Int) := by
      push_cast
      ring
    rw [h, Int.toNat_ofNat]
  rw [hv, range_mul_eq_flatMap Z (Y * X)]
  unfold loopCoords
  simp only [Int.toNat_ofNat, List.map_flatMap, List.map_map]
  apply List.flatMap_congr
  intro z _
  rw [range_mul_eq_flatMap Y X, List.map_flatMap]
  apply List.flatMap_congr
  intro y _
  rw [List.map_map]
  apply List.map_congr_left
  intro x _
  simp only [Function.comp]
  exact bufIndex_natCast X Y x y z

theorem nodup_map_bufIndex_loopCoords {nx ny nz : Int} (hx : 0 ≤ nx) (hy : 0 ≤ ny)
    (hz : 0 ≤ nz) :
    ((loopCoords nx ny nz).map (fun p => bufIndex nx ny p.1 p.2.1 p.2.2)).Nodup := by
  rw [map_bufIndex_loopCoords hx hy hz]
  exact List.nodup_range _

/-! ## Counting non-empty cells -/

theorem map_getD_range (l : List T) (d : T) :
    (List.range l.length).map (fun i => l.getD i d) = l := by
  apply List.ext_getElem
  · simp
  · intro i h1 h2
    simp [List.getD_eq_getElem?_getD, List.getElem?_eq_getElem h2]

section Counting

variable [Cell T] [DecidableEq T]

/-- The non-empty cells of a buffer are counted by the loop positions that hold one. -/
theorem countNonEmpty_eq_filter_loopCoords {nx ny nz : Int} (hx : 0 ≤ nx) (hy : 0 ≤ ny)
    (hz : 0 ≤ nz) (buf : List T) (hlen : buf.length = (nx * ny * nz).toNat) :
    countNonEmpty buf =
      ((loopCoords nx ny nz).filter fun p => decide (cellAt nx ny buf p ≠ default)).length := by
  unfold countNonEmpty
  conv_lhs => rw [← map_getD_range buf default]
  rw [hlen, ← map_bufIndex_loopCoords hx hy hz, List.map_map, List.countP_map,
    List.countP_eq_length_filter]
  rfl

theorem countNonEmpty_replicate (n : Nat) :
    countNonEmpty (List.replicate n (default : T)) = 0 := by
  unfold countNonEmpty
  rw [List.countP_eq_zero]
  intro a ha
  simp [List.eq_of_mem_replicate ha]

theorem countNonEmpty_le_length (l : List T) : countNonEmpty l ≤ l.length :=
  List.countP_le_length _

/-- Effect of one vector write on the number of non-empty cells. -/
theorem countNonEmpty_set (l : List T) (i : Nat) (v : T) (h : i < l.length) :
    countNonEmpty (l.set i v) + (if l.getD i default ≠ default then 1 else 0) =
      countNonEmpty l + (if v ≠ default then 1 else 0) := by
  unfold countNonEmpty
  induction l generalizing i with
  | nil => simp at h
  | cons a l ih =>
    cases i with
    | zero =>
      simp only [List.set_cons_zero, List.countP_cons, List.getD_cons_zero, decide_eq_true_eq]
      omega
    | succ i =>
      have := ih i (by simpa using h)
      simp only [List.set_cons_succ, List.countP_cons, List.getD_cons_succ, decide_eq_true_eq]
      omega

end Counting

/-! ## C7: `clear` -/

section Clear

variable [Cell T] [DecidableEq T]

theorem foldl_clearStep_getD (s : AreaMap3D T) (l : List (Int × Int × Int)) (acc : ClearAcc T)
    (i : Nat) :
    (l.foldl (clearStep s) acc).first.getD i default =
      if ∃ p ∈ l, bufIndex s.sizeX s.sizeY p.1 p.2.1 p.2.2 = i then default
      else acc.first.getD i default := by
  induction l generalizing acc with
  | nil => simp
  | cons a l ih =>
    rw [List.foldl_cons, ih]
    by_cases h1 : ∃ p ∈ l, bufIndex s.sizeX s.sizeY p.1 p.2.1 p.2.2 = i
    · rw [if_pos h1, if_pos]
      obtain ⟨p, hp, he⟩ := h1
      exact ⟨p, List.mem_cons_of_mem _ hp, he⟩
    · rw [if_neg h1]
      by_cases h2 : bufIndex s.sizeX s.sizeY a.1 a.2.1 a.2.2 = i
      · rw [if_pos ⟨a, List.mem_cons_self _ _, h2⟩]
        subst h2
        unfold clearStep
        dsimp only
        by_cases hlt : bufIndex s.sizeX s.sizeY a.1 a.2.1 a.2.2 < acc.first.length
        · exact getD_set_eq _ _ _ _ hlt
        · rw [List.getD_eq_default]
          simpa using hlt
      · rw [if_neg]
        · unfold clearStep
          dsimp only
          exact getD_set_ne _ _ _ h2
        · rintro ⟨p, hp, he⟩
          rcases List.mem_cons.1 hp with rfl | hp
          · exact h2 he
          · exact h1 ⟨p, hp, he⟩

theorem foldl_clearStep_length (s : AreaMap3D T) (l : List (Int × Int × Int))
    (acc : ClearAcc T) :
    (l.foldl (clearStep s) acc).first.length = acc.first.length := by
  induction l generalizing acc with
  | nil => simp
  | cons a l ih =>
    rw [List.foldl_cons, ih]
    simp [clearStep]

/-- The calls made by the loop of `clear` over positions with pairwise different buffer
indices: one per position whose cell was non-empty when the loop started. -/
theorem foldl_clearStep_calls (s : AreaMap3D T) (l : List (Int × Int × Int))
    (hl : (l.map fun p => bufIndex s.sizeX s.sizeY p.1 p.2.1 p.2.2).Nodup) (acc : ClearAcc T) :
    (l.foldl (clearStep s) acc).calls =
      acc.calls ++ if s.outCallback then
        (l.filter fun p => decide (cellAt s.sizeX s.sizeY acc.first p ≠ default)).map
          (fun p => (⟨p.1 + s.offsetX, p.2.1 + s.offsetY, p.2.2 + s.offsetZ,
            cellAt s.sizeX s.sizeY acc.first p⟩ : OutCall T))
      else [] := by
  induction l generalizing acc with
  | nil => simp
  | cons a l ih =>
    rw [List.map_cons, List.nodup_cons] at hl
    rw [List.foldl_cons, ih hl.2]
    have hsame : ∀ p ∈ l, cellAt s.sizeX s.sizeY (clearStep s acc a).first p =
        cellAt s.sizeX s.sizeY acc.first p := by
      intro p hp
      unfold clearStep cellAt
      dsimp only
      apply getD_set_ne
      intro he
      exact hl.1 (List.mem_map.2 ⟨p, hp, he.symm⟩)
    have hfilter : (l.filter fun p =>
          decide (cellAt s.sizeX s.sizeY (clearStep s acc a).first p ≠ default)) =
        l.filter fun p => decide (cellAt s.sizeX s.sizeY acc.first p ≠ default) := by
      apply List.filter_congr
      intro p hp
      rw [hsame p hp]
    rw [hfilter]
    have hmap : ∀ l' : List (Int × Int × Int), (∀ p ∈ l', p ∈ l) →
        l'.map (fun p => (⟨p.1 + s.offsetX, p.2.1 + s.offsetY, p.2.2 + s.offsetZ,
            cellAt s.sizeX s.sizeY (clearStep s acc a).first p⟩ : OutCall T)) =
          l'.map (fun p => (⟨p.1 + s.offsetX, p.2.1 + s.offsetY, p.2.2 + s.offsetZ,
            cellAt s.sizeX s.sizeY acc.first p⟩ : OutCall T)) := by
      intro l' hl'
      apply List.map_congr_left
      intro p hp
      rw [hsame p (hl' p hp)]
    rw [hmap _ (fun p hp => (List.mem_filter.1 hp).1)]
    by_cases hc : s.outCallback = true
    · by_cases hv : cellAt s.sizeX s.sizeY acc.first a = default
      · have hv' : acc.first.getD (bufIndex s.sizeX s.sizeY a.1 a.2.1 a.2.2) default = default :=
          hv
        simp [clearStep, hc, hv, hv', List.filter_cons, -List.getD_eq_getElem?_getD]
      · have hv' : ¬ acc.first.getD (bufIndex s.sizeX s.sizeY a.1 a.2.1 a.2.2) default = default :=
          hv
        simp [clearStep, hc, hv, hv', List.filter_cons, cellAt, -List.getD_eq_getElem?_getD]
    · simp [clearStep, hc]

/-- C7: with a callback installed, `clear()` makes one call per non-empty cell, in loop
order (which is ascending buffer-index order), carrying the cell's world coordinate and the
value it held; afterwards every world coordinate reads empty, `count()` is 0, and offsets and
extents are the same. -/
theorem clear_spec (s : AreaMap3D T) (hs : WellFormed s) (hcb : s.outCallback = true) :
    s.clear.2 =
        ((loopCoords s.sizeX s.sizeY s.sizeZ).filter fun p =>
          decide (cellAt s.sizeX s.sizeY s.firstBuffer p ≠ default)).map (outCallAt s) ∧
      (loopCoords s.sizeX s.sizeY s.sizeZ).map (fun p => bufIndex s.sizeX s.sizeY p.1 p.2.1 p.2.2)
        = List.range s.firstBuffer.length ∧
      (∀ x y z, s.clear.1.get x y z = default) ∧
      (∀ i, s.clear.1.firstBuffer.getD i default = default) ∧
      s.clear.1.count = 0 ∧
      s.clear.1.offsetX = s.offsetX ∧ s.clear.1.offsetY = s.offsetY ∧
      s.clear.1.offsetZ = s.offsetZ ∧
      s.clear.1.sizeX = s.sizeX ∧ s.clear.1.sizeY = s.sizeY ∧ s.clear.1.sizeZ = s.sizeZ := by
  have hidx := map_bufIndex_loopCoords hs.sizeX_nonneg hs.sizeY_nonneg hs.sizeZ_nonneg
  have hall : ∀ i, s.clear.1.firstBuffer.getD i default = default := by
    intro i
    unfold AreaMap3D.clear
    dsimp only
    rw [foldl_clearStep_getD]
    split
    · rfl
    · rename_i hno
      apply List.getD_eq_default
      by_contra hlt
      apply hno
      have hmem : i ∈ (loopCoords s.sizeX s.sizeY s.sizeZ).map
          (fun p => bufIndex s.sizeX s.sizeY p.1 p.2.1 p.2.2) := by
        rw [hidx, ← hs.first_length, List.mem_range]
        simpa using hlt
      obtain ⟨p, hp, he⟩ := List.mem_map.1 hmem
      exact ⟨p, hp, he⟩
  refine ⟨?_, ?_, ?_, hall, rfl, rfl, rfl, rfl, rfl, rfl, rfl⟩
  · unfold AreaMap3D.clear
    dsimp only
    rw [foldl_clearStep_calls s _ (hidx ▸ List.nodup_range _), hcb]
    simp only [List.nil_append, if_true]
    rfl
  · rw [hs.first_length]
    exact hidx
  · intro x y z
    unfold AreaMap3D.get
    dsimp only
    split
    · rfl
    · exact hall _

end Clear

theorem wellFormed_grid311 : WellFormed grid311 :=
  wellFormed_set _ (wellFormed_setOutCallback _
    (wellFormed_new 3 1 1 (by decide) (by decide) (by decide) (by decide))) _ _ _ _

theorem clear_spec_witness :
    WellFormed grid311 ∧ grid311.outCallback = true ∧
      grid311.clear.2 =
        ((loopCoords grid311.sizeX grid311.sizeY grid311.sizeZ).filter fun p =>
          decide (cellAt grid311.sizeX grid311.sizeY grid311.firstBuffer p ≠ default)).map
          (outCallAt grid311) ∧
      grid311.clear.2 = [⟨0, 0, 0, 4⟩] ∧
      (∀ x y z, grid311.clear.1.get x y z = default) ∧
      grid311.clear.1.count = 0 :=
  ⟨wellFormed_grid311, by decide,
    (clear_spec grid311 wellFormed_grid311 (by decide)).1, by decide,
    (clear_spec grid311 wellFormed_grid311 (by decide)).2.2.1,
    (clear_spec grid311 wellFormed_grid311 (by decide)).2.2.2.2.1⟩

/-! ## The occupancy count through `translate` -/

theorem decCount_of_pos (c : Nat) (h0 : 0 < c) (h1 : c < sizeMod) : decCount c = c - 1 := by
  unfold decCount
  unfold sizeMod at h1 ⊢
  omega

theorem iterate_decCount (k c : Nat) (hk : k ≤ c) (hc : c < sizeMod) :
    decCount^[k] c = c - k := by
  induction k generalizing c with
  | zero => rfl
  | succ k ih =>
    rw [Function.iterate_succ_apply, decCount_of_pos c (by omega) hc, ih (c - 1) (by omega)
      (by omega)]
    omega

theorem filter_eq_singleton {α : Type} (f : α → Bool) (l : List α) (hl : l.Nodup) (p : α)
    (hp : p ∈ l) (h : ∀ q ∈ l, f q = true ↔ q = p) : l.filter f = [p] := by
  induction l with
  | nil => simp at hp
  | cons a l ih =>
    rw [List.nodup_cons] at hl
    by_cases ha : a = p
    · subst ha
      have hnone : l.filter f = [] := by
        rw [List.filter_eq_nil_iff]
        intro q hq hf
        have := (h q (List.mem_cons_of_mem _ hq)).1 hf
        exact hl.1 (this ▸ hq)
      rw [List.filter_cons, if_pos ((h a (List.mem_cons_self _ _)).2 rfl), hnone]
    · have hpl : p ∈ l := by
        rcases List.mem_cons.1 hp with h1 | h1
        · exact absurd h1.symm ha
        · exact h1
      have hfa : ¬ f a = true := fun hf => ha ((h a (List.mem_cons_self _ _)).1 hf)
      rw [List.filter_cons, if_neg hfa]
      exact ih hl.2 hpl (fun q hq => h q (List.mem_cons_of_mem _ hq))

section TranslateCount

variable [Cell T] [DecidableEq T]

/-- The non-empty cells split into the evicted and the retained ones. -/
theorem evicted_add_retained (s : AreaMap3D T) (d : Int × Int × Int)
    (l : List (Int × Int × Int)) :
    (l.filter (isEvicted s d)).length + (l.filter (isRetained s d)).length =
      (l.filter fun p => decide (cellAt s.sizeX s.sizeY s.firstBuffer p ≠ default)).length := by
  induction l with
  | nil => rfl
  | cons a l ih =>
    rw [List.filter_cons, List.filter_cons, List.filter_cons]
    have he := isEvicted_iff s d a
    have hr := isRetained_iff s d a
    by_cases hv : cellAt s.sizeX s.sizeY s.firstBuffer a = default
    · have h1 : ¬ isEvicted s d a = true := fun h => (he.1 h).1 hv
      have h2 : ¬ isRetained s d a = true := fun h => (hr.1 h).1 hv
      have h3 : ¬ decide (cellAt s.sizeX s.sizeY s.firstBuffer a ≠ default) = true := by
        simpa using hv
      rw [if_neg h1, if_neg h2, if_neg h3]
      exact ih
    · have h3 : decide (cellAt s.sizeX s.sizeY s.firstBuffer a ≠ default) = true := by
        simpa using hv
      by_cases ho : outOfExtents s.sizeX s.sizeY s.sizeZ (a.1 - d.1) (a.2.1 - d.2.1)
          (a.2.2 - d.2.2) = true
      · have h1 : isEvicted s d a = true := he.2 ⟨hv, ho⟩
        have h2 : ¬ isRetained s d a = true := fun h => by
          rw [(hr.1 h).2] at ho
          exact Bool.noConfusion ho
        rw [if_pos h1, if_neg h2, if_pos h3]
        simp only [List.length_cons]
        omega
      · have ho' : outOfExtents s.sizeX s.sizeY s.sizeZ (a.1 - d.1) (a.2.1 - d.2.1)
            (a.2.2 - d.2.2) = false := by simpa using ho
        have h1 : ¬ isEvicted s d a = true := fun h => ho (he.1 h).2
        have h2 : isRetained s d a = true := hr.2 ⟨hv, ho'⟩
        rw [if_neg h1, if_pos h2, if_pos h3]
        simp only [List.length_cons]
        omega

/-- Every retained cell adds one non-empty cell to the scratch buffer. -/
theorem foldl_translateStep_countNonEmpty (s : AreaMap3D T) (d : Int × Int × Int)
    (l : List (Int × Int × Int)) (hl : l.Nodup) (acc : TranslateAcc T)
    (hempty : ∀ p ∈ l, isRetained s d p = true → acc.second.getD
      (bufIndex s.sizeX s.sizeY (p.1 - d.1) (p.2.1 - d.2.1) (p.2.2 - d.2.2)) default = default)
    (hlen : ∀ p ∈ l, isRetained s d p = true →
      bufIndex s.sizeX s.sizeY (p.1 - d.1) (p.2.1 - d.2.1) (p.2.2 - d.2.2) < acc.second.length) :
    countNonEmpty (l.foldl (translateStep s d.1 d.2.1 d.2.2) acc).second =
      countNonEmpty acc.second + (l.filter (isRetained s d)).length := by
  induction l generalizing acc with
  | nil => simp
  | cons a l ih =>
    rw [List.nodup_cons] at hl
    rw [List.foldl_cons]
    have hstep := translateStep_second s d acc a
    by_cases hr : isRetained s d a = true
    · rw [if_pos hr] at hstep
      rw [ih hl.2, hstep, List.filter_cons, if_pos hr, List.length_cons]
      · have hset := countNonEmpty_set acc.second _ (cellAt s.sizeX s.sizeY s.firstBuffer a)
          (hlen a (List.mem_cons_self _ _) hr)
        rw [if_neg (not_not.2 (hempty a (List.mem_cons_self _ _) hr)),
          if_pos ((isRetained_iff s d a).1 hr).1] at hset
        omega
      · intro p hp hpr
        rw [hstep, getD_set_ne]
        · exact hempty p (List.mem_cons_of_mem _ hp) hpr
        · intro he
          exact hl.1 (retained_target_inj s d a p hr hpr he ▸ hp)
      · intro p hp hpr
        rw [hstep, List.length_set]
        exact hlen p (List.mem_cons_of_mem _ hp) hpr
    · rw [if_neg hr] at hstep
      rw [ih hl.2, hstep, List.filter_cons, if_neg hr]
      · intro p hp hpr
        rw [hstep]
        exact hempty p (List.mem_cons_of_mem _ hp) hpr
      · intro p hp hpr
        rw [hstep]
        exact hlen p (List.mem_cons_of_mem _ hp) hpr

theorem translateLoop_countNonEmpty (s : AreaMap3D T) (hs : WellFormed s) (dx dy dz : Int) :
    countNonEmpty (translateLoop s dx dy dz).second =
      ((loopCoords s.sizeX s.sizeY s.sizeZ).filter (isRetained s (dx, dy, dz))).length := by
  unfold translateLoop
  rw [foldl_translateStep_countNonEmpty s (dx, dy, dz) _ (nodup_loopCoords _ _ _)]
  · simp only [countNonEmpty_replicate, Nat.zero_add]
  · intro p _ _
    exact getD_replicate_default _ _ _
  · intro p _ hr
    rw [List.length_replicate, hs.second_length]
    exact bufIndex_lt ((isRetained_iff s _ p).1 hr).2

theorem translateLoop_count (s : AreaMap3D T) (hs : WellFormed s)
    (hc : s.valuesCount = countNonEmpty s.firstBuffer) (dx dy dz : Int) :
    (translateLoop s dx dy dz).count + ((loopCoords s.sizeX s.sizeY s.sizeZ).filter
        (isEvicted s (dx, dy, dz))).length = s.valuesCount ∧
      (translateLoop s dx dy dz).count = countNonEmpty (translateLoop s dx dy dz).second := by
  have hsplit := evicted_add_retained s (dx, dy, dz) (loopCoords s.sizeX s.sizeY s.sizeZ)
  rw [← countNonEmpty_eq_filter_loopCoords hs.sizeX_nonneg hs.sizeY_nonneg hs.sizeZ_nonneg _
    hs.first_length, ← hc] at hsplit
  have hlt : s.valuesCount < sizeMod := by
    have := countNonEmpty_le_length s.firstBuffer
    have := hs.volume_lt
    have := hs.first_length
    omega
  have hcount : (translateLoop s dx dy dz).count = s.valuesCount -
      ((loopCoords s.sizeX s.sizeY s.sizeZ).filter (isEvicted s (dx, dy, dz))).length := by
    unfold translateLoop
    rw [foldl_translateStep_count s (dx, dy, dz)]
    dsimp only
    exact iterate_decCount _ _ (by omega) hlt
  rw [translateLoop_countNonEmpty s hs]
  omega

end TranslateCount

/-! ## `translate` as a whole -/

section Translate

variable [Cell T] [DecidableEq T]

theorem translate_eq_of_ne (s : AreaMap3D T) (dx dy dz : Int)
    (hd : ¬ (dx = 0 ∧ dy = 0 ∧ dz = 0)) :
    s.translate dx dy dz =
      ({ s with
          firstBuffer := (translateLoop s dx dy dz).second
          secondBuffer := s.firstBuffer
          valuesCount := (translateLoop s dx dy dz).count
          offsetX := s.offsetX + dx + dz
          offsetY := s.offsetY + dy }, (translateLoop s dx dy dz).calls) := by
  unfold AreaMap3D.translate
  rw [if_neg hd]

theorem translate_eq_of_zero (s : AreaMap3D T) : s.translate 0 0 0 = (s, []) := by
  unfold AreaMap3D.translate
  rw [if_pos ⟨rfl, rfl, rfl⟩]

theorem translate_outCallback (s : AreaMap3D T) (dx dy dz : Int) :
    (s.translate dx dy dz).1.outCallback = s.outCallback := by
  unfold AreaMap3D.translate
  split <;> rfl

theorem wellFormed_translate (s : AreaMap3D T) (hs : WellFormed s) (dx dy dz : Int) :
    WellFormed (s.translate dx dy dz).1 := by
  by_cases hd : dx = 0 ∧ dy = 0 ∧ dz = 0
  · obtain ⟨rfl, rfl, rfl⟩ := hd
    rw [translate_eq_of_zero]
    exact hs
  · rw [translate_eq_of_ne s dx dy dz hd]
    exact ⟨hs.sizeX_nonneg, hs.sizeY_nonneg, hs.sizeZ_nonneg,
      (translateLoop_length s dx dy dz).trans hs.second_length, hs.first_length, hs.volume_lt⟩

/-- After a non-zero `translate`, the active buffer holds at every local position `q` inside
the extents what it held at `q + d` before, and `T{}` when `q + d` is outside. -/
theorem translate_cellAt (s : AreaMap3D T) (hs : WellFormed s) (dx dy dz : Int)
    (hd : ¬ (dx = 0 ∧ dy = 0 ∧ dz = 0)) (q : Int × Int × Int)
    (hq : outOfExtents s.sizeX s.sizeY s.sizeZ q.1 q.2.1 q.2.2 = false) :
    cellAt s.sizeX s.sizeY (s.translate dx dy dz).1.firstBuffer q =
      if outOfExtents s.sizeX s.sizeY s.sizeZ (q.1 + dx) (q.2.1 + dy) (q.2.2 + dz) then default
      else cellAt s.sizeX s.sizeY s.firstBuffer (q.1 + dx, q.2.1 + dy, q.2.2 + dz) := by
  rw [translate_eq_of_ne s dx dy dz hd]
  exact translateLoop_cellAt s hs dx dy dz q hq

theorem translate_calls (s : AreaMap3D T) (dx dy dz : Int)
    (hd : ¬ (dx = 0 ∧ dy = 0 ∧ dz = 0)) :
    (s.translate dx dy dz).2 =
      if s.outCallback then
        ((loopCoords s.sizeX s.sizeY s.sizeZ).filter (isEvicted s (dx, dy, dz))).map
          (outCallAt s)
      else [] := by
  rw [translate_eq_of_ne s dx dy dz hd]
  unfold translateLoop
  dsimp only
  rw [foldl_translateStep_calls s (dx, dy, dz)]
  rfl

/-- The count stays the number of non-empty cells of the active buffer through `translate`,
and drops by the number of evicted cells. -/
theorem translate_count (s : AreaMap3D T) (hs : WellFormed s)
    (hc : s.valuesCount = countNonEmpty s.firstBuffer) (dx dy dz : Int) :
    (s.translate dx dy dz).1.valuesCount = countNonEmpty (s.translate dx dy dz).1.firstBuffer ∧
      (¬ (dx = 0 ∧ dy = 0 ∧ dz = 0) →
        (s.translate dx dy dz).1.valuesCount + ((loopCoords s.sizeX s.sizeY s.sizeZ).filter
          (isEvicted s (dx, dy, dz))).length = s.valuesCount) := by
  by_cases hd : dx = 0 ∧ dy = 0 ∧ dz = 0
  · obtain ⟨rfl, rfl, rfl⟩ := hd
    rw [translate_eq_of_zero]
    exact ⟨hc, fun h => absurd ⟨rfl, rfl, rfl⟩ h⟩
  · rw [translate_eq_of_ne s dx dy dz hd]
    exact ⟨(translateLoop_count s hs hc dx dy dz).2, fun _ => (translateLoop_count s hs hc dx dy dz).1⟩

/-! ## C5: what `translate` evicts -/

theorem wellFormed_grid311Silent : WellFormed grid311Silent :=
  wellFormed_set _ (wellFormed_new 3 1 1 (by decide) (by decide) (by decide) (by decide)) _ _ _ _

/-- C5, counterexample: on the (3,1,1) grid with no callback installed that holds 4 on its
low X edge, `setCenter(2,0,0)` runs `translate(1,0,0)`; the cell at local position (0,0,0)
is non-empty and leaves the extents, yet no call is made, and `count()` drops from 1 to 0,
which is not the number of calls. -/
theorem translate_evictions_counterexample :
    grid311Silent.outCallback = false ∧
      grid311Silent.setCenter 2 0 0 = grid311Silent.translate 1 0 0 ∧
      ¬ ((1 : Int) = 0 ∧ (0 : Int) = 0 ∧ (0 : Int) = 0) ∧
      ((loopCoords grid311Silent.sizeX grid311Silent.sizeY grid311Silent.sizeZ).filter
        (isEvicted grid311Silent (1, 0, 0))).map (outCallAt grid311Silent) = [⟨0, 0, 0, 4⟩] ∧
      (grid311Silent.translate 1 0 0).2 = [] ∧
      ¬ ((grid311Silent.translate 1 0 0).2 =
        ((loopCoords grid311Silent.sizeX grid311Silent.sizeY grid311Silent.sizeZ).filter
          (isEvicted grid311Silent (1, 0, 0))).map (outCallAt grid311Silent)) ∧
      grid311Silent.count = 1 ∧ (grid311Silent.translate 1 0 0).1.count = 0 ∧
      ¬ ((grid311Silent.translate 1 0 0).1.count + (grid311Silent.translate 1 0 0).2.length =
        grid311Silent.count) := by
  decide

/-- C5, amended: for a non-zero `translate(d)`, when a callback is installed the calls made
are exactly `(local + offset before the call, value before the call)` for the cells that are
non-empty and whose local position minus `d` is outside the extents, in loop order, which is
ascending buffer-index order, and `count()` drops by the number of calls; when no callback
is installed no call is made and `count()` still drops by the number of those cells.  In
particular when a single cell `p` is non-empty and leaves the window, `count()` is one
smaller and, with a callback installed, there is exactly one call. -/
theorem translate_evictions (s : AreaMap3D T) (hs : WellFormed s)
    (hc : s.count = countNonEmpty s.firstBuffer)
    (dx dy dz : Int) (hd : ¬ (dx = 0 ∧ dy = 0 ∧ dz = 0)) :
    (s.outCallback = true →
        (s.translate dx dy dz).2 =
          ((loopCoords s.sizeX s.sizeY s.sizeZ).filter (isEvicted s (dx, dy, dz))).map
            (outCallAt s) ∧
        (s.translate dx dy dz).1.count + (s.translate dx dy dz).2.length = s.count) ∧
      (s.outCallback = false → (s.translate dx dy dz).2 = []) ∧
      (loopCoords s.sizeX s.sizeY s.sizeZ).map (fun p => bufIndex s.sizeX s.sizeY p.1 p.2.1 p.2.2)
        = List.range s.firstBuffer.length ∧
      (s.translate dx dy dz).1.count +
        ((loopCoords s.sizeX s.sizeY s.sizeZ).filter (isEvicted s (dx, dy, dz))).length
          = s.count ∧
      (∀ p ∈ loopCoords s.sizeX s.sizeY s.sizeZ,
        (∀ q ∈ loopCoords s.sizeX s.sizeY s.sizeZ,
          cellAt s.sizeX s.sizeY s.firstBuffer q ≠ default ↔ q = p) →
        outOfExtents s.sizeX s.sizeY s.sizeZ (p.1 - dx) (p.2.1 - dy) (p.2.2 - dz) = true →
        (s.translate dx dy dz).1.count + 1 = s.count ∧
          (s.outCallback = true → (s.translate dx dy dz).2 = [outCallAt s p])) := by
  have hdrop : (s.translate dx dy dz).1.count +
      ((loopCoords s.sizeX s.sizeY s.sizeZ).filter (isEvicted s (dx, dy, dz))).length
        = s.count := (translate_count s hs hc dx dy dz).2 hd
  have hcalls : s.outCallback = true → (s.translate dx dy dz).2 =
      ((loopCoords s.sizeX s.sizeY s.sizeZ).filter (isEvicted s (dx, dy, dz))).map
        (outCallAt s) := by
    intro hcb
    rw [translate_calls s dx dy dz hd, hcb]
    rfl
  refine ⟨fun hcb => ⟨hcalls hcb, ?_⟩, ?_, ?_, hdrop, ?_⟩
  · rw [hcalls hcb, List.length_map]
    exact hdrop
  · intro hno
    rw [translate_calls s dx dy dz hd, hno]
    rfl
  · rw [hs.first_length]
    exact map_bufIndex_loopCoords hs.sizeX_nonneg hs.sizeY_nonneg hs.sizeZ_nonneg
  · intro p hp honly hout
    have hsingle : (loopCoords s.sizeX s.sizeY s.sizeZ).filter (isEvicted s (dx, dy, dz)) = [p] := by
      apply filter_eq_singleton _ _ (nodup_loopCoords _ _ _) p hp
      intro q hq
      rw [isEvicted_iff]
      constructor
      · intro h
        exact (honly q hq).1 h.1
      · intro h
        subst h
        exact ⟨(honly q hq).2 rfl, hout⟩
    refine ⟨?_, fun hcb => ?_⟩
    · rw [hsingle] at hdrop
      exact hdrop
    · rw [hcalls hcb, hsingle]
      rfl

theorem translate_evictions_witness :
    WellFormed grid311 ∧ grid311.count = countNonEmpty grid311.firstBuffer ∧
      ¬ ((1 : Int) = 0 ∧ (0 : Int) = 0 ∧ (0 : Int) = 0) ∧ grid311.outCallback = true ∧
      (grid311.translate 1 0 0).2 =
        ((loopCoords grid311.sizeX grid311.sizeY grid311.sizeZ).filter
          (isEvicted grid311 (1, 0, 0))).map (outCallAt grid311) ∧
      (grid311.translate 1 0 0).1.count + (grid311.translate 1 0 0).2.length = grid311.count ∧
      (grid311.translate 1 0 0).2 = [⟨0, 0, 0, 4⟩] ∧
      grid311.count = 1 ∧ (grid311.translate 1 0 0).1.count = 0 :=
  ⟨wellFormed_grid311, by decide, by decide, by decide,
    ((translate_evictions grid311 wellFormed_grid311 (by decide) 1 0 0 (by decide)).1
      (by decide)).1,
    ((translate_evictions grid311 wellFormed_grid311 (by decide) 1 0 0 (by decide)).1
      (by decide)).2,
    by decide, by decide, by decide⟩

end Translate

/-! ## C6: `translate(d)` followed by `translate(-d)` -/

theorem get_eq_cellAt [Cell T] (s : AreaMap3D T) (x y z : Int) :
    s.get x y z =
      if outOfExtents s.sizeX s.sizeY s.sizeZ (x - s.offsetX) (y - s.offsetY) (z - s.offsetZ)
      then default
      else cellAt s.sizeX s.sizeY s.firstBuffer (x - s.offsetX, y - s.offsetY, z - s.offsetZ) :=
  rfl

section RoundTrip

variable [Cell T] [DecidableEq T]

/-- A non-zero `translate(d)` leaves no non-empty cell that `translate(-d)` would evict. -/
theorem no_eviction_on_way_back (s : AreaMap3D T) (hs : WellFormed s) (dx dy dz : Int)
    (hd : ¬ (dx = 0 ∧ dy = 0 ∧ dz = 0)) :
    (loopCoords s.sizeX s.sizeY s.sizeZ).filter
      (isEvicted (s.translate dx dy dz).1 (-dx, -dy, -dz)) = [] := by
  rw [List.filter_eq_nil_iff]
  intro p hp he
  rw [isEvicted_iff] at he
  obtain ⟨hne, hout⟩ := he
  simp only [(translate_sizes s dx dy dz).1, (translate_sizes s dx dy dz).2.1,
    (translate_sizes s dx dy dz).2.2, sub_neg_eq_add] at hne hout
  rw [translate_cellAt s hs dx dy dz hd p (mem_loopCoords.1 hp), if_pos hout] at hne
  exact hne rfl

/-- C6: after `translate(dx,dy,dz)` followed by `translate(-dx,-dy,-dz)` the offsets are the
original ones, a world coordinate reads its original value when it was inside the window and
its local position minus the delta was inside the extents, every other coordinate reads
empty, and the second translation makes no callback call. -/
theorem translate_roundtrip (s : AreaMap3D T) (hs : WellFormed s) (dx dy dz : Int) :
    ((s.translate dx dy dz).1.translate (-dx) (-dy) (-dz)).1.offsetX = s.offsetX ∧
      ((s.translate dx dy dz).1.translate (-dx) (-dy) (-dz)).1.offsetY = s.offsetY ∧
      ((s.translate dx dy dz).1.translate (-dx) (-dy) (-dz)).1.offsetZ = s.offsetZ ∧
      (∀ x y z, ((s.translate dx dy dz).1.translate (-dx) (-dy) (-dz)).1.get x y z =
        if s.isInside x y z = true ∧
          outOfExtents s.sizeX s.sizeY s.sizeZ (x - s.offsetX - dx) (y - s.offsetY - dy)
            (z - s.offsetZ - dz) = false
        then s.get x y z else default) ∧
      ((s.translate dx dy dz).1.translate (-dx) (-dy) (-dz)).2 = [] := by
  have hoff : ((s.translate dx dy dz).1.translate (-dx) (-dy) (-dz)).1.offsetX = s.offsetX ∧
      ((s.translate dx dy dz).1.translate (-dx) (-dy) (-dz)).1.offsetY = s.offsetY ∧
      ((s.translate dx dy dz).1.translate (-dx) (-dy) (-dz)).1.offsetZ = s.offsetZ := by
    simp only [translate_offsets]
    refine ⟨by ring, by ring, ?_⟩
    trivial
  obtain ⟨hox, hoy, hoz⟩ := hoff
  have hsz := translate_sizes s dx dy dz
  have hsz2 := translate_sizes (s.translate dx dy dz).1 (-dx) (-dy) (-dz)
  refine ⟨hox, hoy, hoz, ?_, ?_⟩
  · intro x y z
    by_cases hd : dx = 0 ∧ dy = 0 ∧ dz = 0
    · obtain ⟨rfl, rfl, rfl⟩ := hd
      simp only [neg_zero, translate_eq_of_zero, sub_zero]
      unfold AreaMap3D.isInside
      dsimp only
      rw [get_eq_cellAt]
      by_cases ho : outOfExtents s.sizeX s.sizeY s.sizeZ (x - s.offsetX) (y - s.offsetY)
          (z - s.offsetZ) = true
      · simp [ho]
      · simp [ho]
    · have hd' : ¬ (-dx = 0 ∧ -dy = 0 ∧ -dz = 0) := by
        simpa using hd
      have hwf := wellFormed_translate s hs dx dy dz
      rw [get_eq_cellAt, hox, hoy, hoz, hsz2.1, hsz2.2.1, hsz2.2.2, hsz.1, hsz.2.1, hsz.2.2]
      unfold AreaMap3D.isInside
      dsimp only
      by_cases ho : outOfExtents s.sizeX s.sizeY s.sizeZ (x - s.offsetX) (y - s.offsetY)
          (z - s.offsetZ) = true
      · simp [ho]
      · have ho' : outOfExtents s.sizeX s.sizeY s.sizeZ (x - s.offsetX) (y - s.offsetY)
            (z - s.offsetZ) = false := by simpa using ho
        rw [if_neg ho]
        have h2 := translate_cellAt (s.translate dx dy dz).1 hwf (-dx) (-dy) (-dz) hd'
          (x - s.offsetX, y - s.offsetY, z - s.offsetZ)
          (by rw [hsz.1, hsz.2.1, hsz.2.2]; exact ho')
        simp only [hsz.1, hsz.2.1, hsz.2.2, ← sub_eq_add_neg] at h2
        rw [h2]
        by_cases hb : outOfExtents s.sizeX s.sizeY s.sizeZ (x - s.offsetX - dx)
            (y - s.offsetY - dy) (z - s.offsetZ - dz) = true
        · simp [hb]
        · have hb' : outOfExtents s.sizeX s.sizeY s.sizeZ (x - s.offsetX - dx)
              (y - s.offsetY - dy) (z - s.offsetZ - dz) = false := by simpa using hb
          have hcond : (!outOfExtents s.sizeX s.sizeY s.sizeZ (x - s.offsetX) (y - s.offsetY)
              (z - s.offsetZ)) = true ∧ outOfExtents s.sizeX s.sizeY s.sizeZ (x - s.offsetX - dx)
              (y - s.offsetY - dy) (z - s.offsetZ - dz) = false := ⟨by simp [ho'], hb'⟩
          rw [if_neg hb, translate_cellAt s hs dx dy dz hd
            (x - s.offsetX - dx, y - s.offsetY - dy, z - s.offsetZ - dz) hb']
          simp only [sub_add_cancel]
          rw [if_neg ho, if_pos hcond, get_eq_cellAt, if_neg ho]
  · by_cases hd : dx = 0 ∧ dy = 0 ∧ dz = 0
    · obtain ⟨rfl, rfl, rfl⟩ := hd
      simp only [neg_zero, translate_eq_of_zero]
    · have hd' : ¬ (-dx = 0 ∧ -dy = 0 ∧ -dz = 0) := by
        simpa using hd
      rw [translate_calls _ _ _ _ hd', hsz.1, hsz.2.1, hsz.2.2,
        no_eviction_on_way_back s hs dx dy dz hd]
      simp

theorem translate_roundtrip_witness :
    WellFormed grid333 ∧
      ((grid333.translate 1 0 1).1.translate (-1) (-0) (-1)).1.offsetX = grid333.offsetX ∧
      ((grid333.translate 1 0 1).1.translate (-1) (-0) (-1)).1.offsetY = grid333.offsetY ∧
      ((grid333.translate 1 0 1).1.translate (-1) (-0) (-1)).1.offsetZ = grid333.offsetZ ∧
      ((grid333.translate 1 0 1).1.translate (-1) (-0) (-1)).1.get 1 1 1 = 7 ∧
      ((grid333.translate 1 0 1).1.translate (-1) (-0) (-1)).2 = [] :=
  ⟨wellFormed_grid333, (translate_roundtrip grid333 wellFormed_grid333 1 0 1).1,
    (translate_roundtrip grid333 wellFormed_grid333 1 0 1).2.1,
    (translate_roundtrip grid333 wellFormed_grid333 1 0 1).2.2.1, by decide,
    (translate_roundtrip grid333 wellFormed_grid333 1 0 1).2.2.2.2⟩

end RoundTrip

/-! ## The occupancy invariant, operation by operation -/

section CountInvariant

variable [Cell T] [DecidableEq T]

end CountInvariant

/-! ## The occupancy invariant through `resize` -/

section ResizeCount

variable [Cell T] [DecidableEq T]

end ResizeCount

/-! ## The copy loop of `resize` -/

theorem foldl_resizeCopyStep_length [Cell T] (sx sy nx ny : Int) (old : List T)
    (l : List (Int × Int × Int)) (acc : List T) :
    (l.foldl (resizeCopyStep sx sy nx ny old) acc).length = acc.length := by
  induction l generalizing acc with
  | nil => rfl
  | cons a l ih =>
    rw [List.foldl_cons, ih]
    simp [resizeCopyStep]

section ResizeCopy

variable [Cell T] [DecidableEq T]

theorem mem_loopCoords_min {sx sy sz nx ny nz : Int} {p : Int × Int × Int} :
    p ∈ loopCoords (min sx nx) (min sy ny) (min sz nz) ↔
      outOfExtents sx sy sz p.1 p.2.1 p.2.2 = false ∧
        outOfExtents nx ny nz p.1 p.2.1 p.2.2 = false := by
  rw [mem_loopCoords, outOfExtents_eq_false, outOfExtents_eq_false, outOfExtents_eq_false]
  omega

end ResizeCopy

/-- The accessors with exact subtraction: `isInside(x,y,z)` holds iff
`offset <= coordinate < offset + size` on each axis; `getIf` is absent iff `isInside` is
false, and when present it is the cell of the active buffer at index
`lz*sizeY*sizeX + ly*sizeX + lx`; `get` is that cell when `getIf` is present and `T{}`
otherwise. -/
theorem read_accessors_exact [Cell T] (s : AreaMap3D T) (x y z : Int) :
    (s.isInside x y z = true ↔
      (s.offsetX ≤ x ∧ x < s.offsetX + s.sizeX) ∧ (s.offsetY ≤ y ∧ y < s.offsetY + s.sizeY) ∧
        (s.offsetZ ≤ z ∧ z < s.offsetZ + s.sizeZ)) ∧
      (s.getIf x y z = none ↔ s.isInside x y z = false) ∧
      (s.isInside x y z = true →
        s.getIf x y z = some (s.firstBuffer.getD
          (bufIndex s.sizeX s.sizeY (x - s.offsetX) (y - s.offsetY) (z - s.offsetZ)) default)) ∧
      s.get x y z = (match s.getIf x y z with
        | some value => value
        | none => default) := by
  unfold AreaMap3D.isInside AreaMap3D.getIf AreaMap3D.get
  dsimp only
  by_cases ho : outOfExtents s.sizeX s.sizeY s.sizeZ (x - s.offsetX) (y - s.offsetY)
      (z - s.offsetZ) = true
  · have hno := outOfExtents_eq_true.1 ho
    simp only [ho, Bool.not_true, Bool.false_eq_true, if_true, false_iff, true_and, false_imp_iff,
      and_true]
    omega
  · have ho' : outOfExtents s.sizeX s.sizeY s.sizeZ (x - s.offsetX) (y - s.offsetY)
        (z - s.offsetZ) = false := by simpa using ho
    have hin := outOfExtents_eq_false.1 ho'
    simp only [ho', Bool.not_false, Bool.false_eq_true, if_false, true_iff, forall_const,
      and_true, reduceCtorEq, Bool.true_eq_false]
    omega

/-- C11: `require(x,y,z)` throws the out-of-window exception iff `isInside(x,y,z)` is false;
when it does not throw it returns the value `get(x,y,z)` returns; the state after the call
is the state before it. -/
theorem require_spec [Cell T] (s : AreaMap3D T) (x y z : Int) :
    ((s.require x y z).2 = Except.error RequireError.outOfWindow ↔ s.isInside x y z = false) ∧
      ((∃ e, (s.require x y z).2 = Except.error e) ↔ s.isInside x y z = false) ∧
      (s.isInside x y z = true → (s.require x y z).2 = Except.ok (s.get x y z)) ∧
      (s.require x y z).1 = s := by
  unfold AreaMap3D.require AreaMap3D.isInside AreaMap3D.get
  dsimp only
  by_cases ho : outOfExtents s.sizeX s.sizeY s.sizeZ (x - s.offsetX) (y - s.offsetY)
      (z - s.offsetZ) = true
  · simp [ho]
    exact ⟨RequireError.outOfWindow, trivial⟩
  · have ho' : outOfExtents s.sizeX s.sizeY s.sizeZ (x - s.offsetX) (y - s.offsetY)
        (z - s.offsetZ) = false := by simpa using ho
    simp [ho']

/-- C14: `get(x,y,z,def)` returns the cell's value when the coordinate is inside the window
and the cell differs from `T{}`, and `def` in every other case. -/
theorem getWithDefault_spec [Cell T] [DecidableEq T] (s : AreaMap3D T) (x y z : Int)
    (dflt : T) :
    s.getWithDefault x y z dflt =
      if s.isInside x y z = true ∧ s.get x y z ≠ default then s.get x y z else dflt := by
  unfold AreaMap3D.getWithDefault AreaMap3D.getIf AreaMap3D.isInside AreaMap3D.get
  dsimp only
  by_cases ho : outOfExtents s.sizeX s.sizeY s.sizeZ (x - s.offsetX) (y - s.offsetY)
      (z - s.offsetZ) = true
  · simp [ho]
  · have ho' : outOfExtents s.sizeX s.sizeY s.sizeZ (x - s.offsetX) (y - s.offsetY)
        (z - s.offsetZ) = false := by simpa using ho
    simp only [ho', Bool.false_eq_true, if_false, Bool.not_false, true_and]
    by_cases hv : s.firstBuffer.getD
        (bufIndex s.sizeX s.sizeY (x - s.offsetX) (y - s.offsetY) (z - s.offsetZ)) default = default
    · rw [if_pos hv, if_neg (not_not.2 hv)]
    · rw [if_neg hv, if_pos hv]

/-! ## C15: the extent accessors -/

/-- C15: on the grid constructed with (width, height, length) = (2,3,4), `getWidth()` is 2,
`getLenght()` is 4 and `area()` is 6, but `getHeight()` is 2, the width, not 3; after
`resize(4,5,6)` it is 4, the new width, not 5. -/
theorem getHeight_returns_width :
    grid234.getWidth = 2 ∧ grid234.getLenght = 4 ∧ grid234.area = 2 * 3 ∧
      grid234.sizeY = 3 ∧ grid234.getHeight = 2 ∧
      (grid234.resize 4 5 6).1.getWidth = 4 ∧ (grid234.resize 4 5 6).1.getLenght = 6 ∧
      (grid234.resize 4 5 6).1.area = 4 * 5 ∧
      (grid234.resize 4 5 6).1.sizeY = 5 ∧ (grid234.resize 4 5 6).1.getHeight = 4 := by
  refine ⟨rfl, rfl, rfl, rfl, rfl, ?_, ?_, ?_, ?_, ?_⟩ <;>
    simp [AreaMap3D.getWidth, AreaMap3D.getLenght, AreaMap3D.area, AreaMap3D.getHeight,
      resize_frame]

/-! ## C12: what `set` leaves alone -/

section TranslateMore

variable [Cell T] [DecidableEq T]

/-- C16: after a non-zero `translate(dx,dy,dz)` the extents are the same and, at every local
position `p` inside them, the active buffer holds what the previous active buffer held at
`p + d` when `p + d` is inside the extents and `T{}` otherwise; two different cells that are
kept are never written to the same position. -/
theorem translate_local_shift (s : AreaMap3D T) (hs : WellFormed s) (dx dy dz : Int)
    (hd : ¬ (dx = 0 ∧ dy = 0 ∧ dz = 0)) :
    (s.translate dx dy dz).1.sizeX = s.sizeX ∧ (s.translate dx dy dz).1.sizeY = s.sizeY ∧
      (s.translate dx dy dz).1.sizeZ = s.sizeZ ∧
      (∀ p : Int × Int × Int, outOfExtents s.sizeX s.sizeY s.sizeZ p.1 p.2.1 p.2.2 = false →
        cellAt s.sizeX s.sizeY (s.translate dx dy dz).1.firstBuffer p =
          if outOfExtents s.sizeX s.sizeY s.sizeZ (p.1 + dx) (p.2.1 + dy) (p.2.2 + dz)
          then default
          else cellAt s.sizeX s.sizeY s.firstBuffer (p.1 + dx, p.2.1 + dy, p.2.2 + dz)) ∧
      (∀ p q : Int × Int × Int, isRetained s (dx, dy, dz) p = true →
        isRetained s (dx, dy, dz) q = true →
        bufIndex s.sizeX s.sizeY (p.1 - dx) (p.2.1 - dy) (p.2.2 - dz) =
          bufIndex s.sizeX s.sizeY (q.1 - dx) (q.2.1 - dy) (q.2.2 - dz) → p = q) :=
  ⟨(translate_sizes s dx dy dz).1, (translate_sizes s dx dy dz).2.1,
    (translate_sizes s dx dy dz).2.2, fun p hp => translate_cellAt s hs dx dy dz hd p hp,
    fun p q hp hq he => retained_target_inj s (dx, dy, dz) p q hp hq he⟩

theorem translate_local_shift_witness :
    WellFormed grid333 ∧ ¬ ((1 : Int) = 0 ∧ (0 : Int) = 0 ∧ (1 : Int) = 0) ∧
      (grid333.translate 1 0 1).1.sizeX = grid333.sizeX ∧
      cellAt grid333.sizeX grid333.sizeY (grid333.translate 1 0 1).1.firstBuffer (0, 1, 0) =
        (if outOfExtents grid333.sizeX grid333.sizeY grid333.sizeZ (0 + 1) (1 + 0) (0 + 1)
          then default
          else cellAt grid333.sizeX grid333.sizeY grid333.firstBuffer (0 + 1, 1 + 0, 0 + 1)) ∧
      cellAt grid333.sizeX grid333.sizeY (grid333.translate 1 0 1).1.firstBuffer (0, 1, 0) = 7 :=
  ⟨wellFormed_grid333, by decide,
    (translate_local_shift grid333 wellFormed_grid333 1 0 1 (by decide)).1,
    (translate_local_shift grid333 wellFormed_grid333 1 0 1 (by decide)).2.2.2.1 (0, 1, 0)
      (by decide),
    by decide⟩

/-- With `dz = 0` every world coordinate reads after `translate` what it read before,
provided it is inside the window after the call. -/
theorem translate_get_of_dz_zero (s : AreaMap3D T) (hs : WellFormed s) (dx dy : Int)
    (x y z : Int) (hin : (s.translate dx dy 0).1.isInside x y z = true) :
    (s.translate dx dy 0).1.get x y z = s.get x y z := by
  by_cases hd : dx = 0 ∧ dy = 0 ∧ (0 : Int) = 0
  · obtain ⟨rfl, rfl, -⟩ := hd
    rw [translate_eq_of_zero]
  · have hoff := translate_offsets s dx dy 0
    have hsz := translate_sizes s dx dy 0
    unfold AreaMap3D.isInside at hin
    dsimp only at hin
    rw [hoff.1, hoff.2.1, hoff.2.2, hsz.1, hsz.2.1, hsz.2.2] at hin
    have hq : outOfExtents s.sizeX s.sizeY s.sizeZ (x - (s.offsetX + dx + 0))
        (y - (s.offsetY + dy)) (z - s.offsetZ) = false := by simpa using hin
    rw [get_eq_cellAt, get_eq_cellAt, hoff.1, hoff.2.1, hoff.2.2, hsz.1, hsz.2.1, hsz.2.2,
      if_neg (by rw [hq]; exact Bool.false_ne_true), translate_cellAt s hs dx dy 0 hd
        (x - (s.offsetX + dx + 0), y - (s.offsetY + dy), z - s.offsetZ) hq]
    have e1 : x - (s.offsetX + dx + 0) + dx = x - s.offsetX := by ring
    have e2 : y - (s.offsetY + dy) + dy = y - s.offsetY := by ring
    have e3 : z - s.offsetZ + 0 = z - s.offsetZ := by ring
    simp only [e1, e2, e3]

/-- C20: `translate(dx,dy,0)` advances `offsetX` by `dx` and `offsetY` by `dy`, leaves
`offsetZ`, and every world coordinate inside the new window reads what it read before (empty
when it was outside the old window); and `setCenter(cx,cy,cz)` with `cz` the current Z centre
makes the X and Y centres `cx` and `cy` and keeps the Z centre. -/
theorem translate_exact_without_z (s : AreaMap3D T) (hs : WellFormed s) (dx dy : Int)
    (cx cy : Int) :
    (s.translate dx dy 0).1.offsetX = s.offsetX + dx ∧
      (s.translate dx dy 0).1.offsetY = s.offsetY + dy ∧
      (s.translate dx dy 0).1.offsetZ = s.offsetZ ∧
      (∀ x y z, (s.translate dx dy 0).1.isInside x y z = true →
        (s.translate dx dy 0).1.get x y z = s.get x y z ∧
          (s.isInside x y z = false → (s.translate dx dy 0).1.get x y z = default)) ∧
      (s.setCenter cx cy s.centerZ).1.centerX = cx ∧
      (s.setCenter cx cy s.centerZ).1.centerY = cy ∧
      (s.setCenter cx cy s.centerZ).1.centerZ = s.centerZ := by
  have hoff := translate_offsets s dx dy 0
  refine ⟨by rw [hoff.1]; ring, hoff.2.1, hoff.2.2, ?_, ?_⟩
  · intro x y z hin
    have hget := translate_get_of_dz_zero s hs dx dy x y z hin
    refine ⟨hget, fun hout => ?_⟩
    rw [hget]
    unfold AreaMap3D.isInside at hout
    dsimp only at hout
    rw [get_eq_cellAt, if_pos (by simpa using hout)]
  · unfold AreaMap3D.setCenter
    dsimp only
    have hz : s.centerZ - (s.offsetZ + s.sizeZ.tdiv 2) = 0 := by
      unfold AreaMap3D.centerZ
      ring
    rw [hz]
    split
    · unfold AreaMap3D.centerX AreaMap3D.centerY AreaMap3D.centerZ
      simp only [translate_offsets, translate_sizes]
      refine ⟨by ring, by ring, ?_⟩
      trivial
    · rename_i hno
      unfold AreaMap3D.centerX AreaMap3D.centerY
      simp only [ne_eq, not_true_eq_false, or_false, not_or, not_not] at hno
      refine ⟨?_, ?_, rfl⟩
      · linarith [hno.1]
      · linarith [hno.2]

theorem translate_exact_without_z_witness :
    WellFormed grid333 ∧
      (grid333.translate 1 (-1) 0).1.offsetX = grid333.offsetX + 1 ∧
      (grid333.translate 1 (-1) 0).1.offsetY = grid333.offsetY + -1 ∧
      (grid333.translate 1 (-1) 0).1.offsetZ = grid333.offsetZ ∧
      (grid333.translate 1 (-1) 0).1.isInside 1 1 1 = true ∧
      (grid333.translate 1 (-1) 0).1.get 1 1 1 = grid333.get 1 1 1 ∧
      (grid333.translate 1 (-1) 0).1.get 1 1 1 = 7 ∧
      (grid333.setCenter 2 0 grid333.centerZ).1.centerX = 2 ∧
      (grid333.setCenter 2 0 grid333.centerZ).1.centerY = 0 :=
  ⟨wellFormed_grid333,
    (translate_exact_without_z grid333 wellFormed_grid333 1 (-1) 2 0).1,
    (translate_exact_without_z grid333 wellFormed_grid333 1 (-1) 2 0).2.1,
    (translate_exact_without_z grid333 wellFormed_grid333 1 (-1) 2 0).2.2.1,
    by decide,
    ((translate_exact_without_z grid333 wellFormed_grid333 1 (-1) 2 0).2.2.2.1 1 1 1
      (by decide)).1,
    by decide,
    (translate_exact_without_z grid333 wellFormed_grid333 1 (-1) 2 0).2.2.2.2.1,
    (translate_exact_without_z grid333 wellFormed_grid333 1 (-1) 2 0).2.2.2.2.2.1⟩

end TranslateMore

/-! ## C18: a translation at least as large as the window -/

section TranslateLarge

variable [Cell T] [DecidableEq T]

/-- When the delta is at least the extent on some axis, no position inside the extents stays
inside when moved by the delta, in either direction. -/
theorem outOfExtents_of_large (sx sy sz dx dy dz : Int)
    (hbig : sx ≤ |dx| ∨ sy ≤ |dy| ∨ sz ≤ |dz|) (p : Int × Int × Int)
    (hp : outOfExtents sx sy sz p.1 p.2.1 p.2.2 = false) :
    outOfExtents sx sy sz (p.1 - dx) (p.2.1 - dy) (p.2.2 - dz) = true ∧
      outOfExtents sx sy sz (p.1 + dx) (p.2.1 + dy) (p.2.2 + dz) = true := by
  have hin := outOfExtents_eq_false.1 hp
  rw [le_abs, le_abs, le_abs] at hbig
  constructor
  · rw [outOfExtents_eq_true]
    omega
  · rw [outOfExtents_eq_true]
    omega

/-- C18, counterexample: on the (3,1,1) grid with no callback installed that holds 4 at
(0,0,0), `setCenter(-2,0,0)` runs `translate(-3,0,0)`, whose X delta is as large as the X
extent; the grid holds one non-empty cell and no call is made. -/
theorem translate_large_counterexample :
    grid311Silent.outCallback = false ∧
      grid311Silent.setCenter (-2) 0 0 = grid311Silent.translate (-3) 0 0 ∧
      (grid311Silent.sizeX ≤ |(-3 : Int)| ∨ grid311Silent.sizeY ≤ |(0 : Int)| ∨
        grid311Silent.sizeZ ≤ |(0 : Int)|) ∧
      grid311Silent.get 0 0 0 = 4 ∧ grid311Silent.count = 1 ∧
      ((loopCoords grid311Silent.sizeX grid311Silent.sizeY grid311Silent.sizeZ).filter fun p =>
        decide (cellAt grid311Silent.sizeX grid311Silent.sizeY grid311Silent.firstBuffer p
          ≠ default)).length = 1 ∧
      (grid311Silent.translate (-3) 0 0).2 = [] ∧
      ¬ ((grid311Silent.translate (-3) 0 0).2.length =
        ((loopCoords grid311Silent.sizeX grid311Silent.sizeY grid311Silent.sizeZ).filter
          fun p => decide (cellAt grid311Silent.sizeX grid311Silent.sizeY
            grid311Silent.firstBuffer p ≠ default)).length) := by
  refine ⟨by decide, by decide, Or.inl (by decide), by decide, by decide, by decide,
    by decide, by decide⟩

/-- C18, amended: when the absolute value of the delta is at least the extent on some axis,
after `translate` every world coordinate reads empty, every cell of the active buffer is
empty and `count()` is 0; when a callback is installed the calls made are one for every
non-empty cell, in loop order, and when none is installed no call is made. -/
theorem translate_large_empties (s : AreaMap3D T) (hs : WellFormed s)
    (hc : s.count = countNonEmpty s.firstBuffer)
    (dx dy dz : Int) (hbig : s.sizeX ≤ |dx| ∨ s.sizeY ≤ |dy| ∨ s.sizeZ ≤ |dz|) :
    (∀ x y z, (s.translate dx dy dz).1.get x y z = default) ∧
      countNonEmpty (s.translate dx dy dz).1.firstBuffer = 0 ∧
      (s.translate dx dy dz).1.count = 0 ∧
      (s.outCallback = true →
        (s.translate dx dy dz).2 =
          ((loopCoords s.sizeX s.sizeY s.sizeZ).filter fun p =>
            decide (cellAt s.sizeX s.sizeY s.firstBuffer p ≠ default)).map (outCallAt s) ∧
        (s.translate dx dy dz).2.length = s.count) ∧
      (s.outCallback = false → (s.translate dx dy dz).2 = []) := by
  have hfilter : (loopCoords s.sizeX s.sizeY s.sizeZ).filter (isEvicted s (dx, dy, dz)) =
      (loopCoords s.sizeX s.sizeY s.sizeZ).filter fun p =>
        decide (cellAt s.sizeX s.sizeY s.firstBuffer p ≠ default) := by
    apply List.filter_congr
    intro p hp
    have hout := (outOfExtents_of_large _ _ _ dx dy dz hbig p (mem_loopCoords.1 hp)).1
    unfold isEvicted
    rw [hout, Bool.and_true]
  have hcountAll := countNonEmpty_eq_filter_loopCoords hs.sizeX_nonneg hs.sizeY_nonneg
    hs.sizeZ_nonneg s.firstBuffer hs.first_length
  have hsz := translate_sizes s dx dy dz
  have hwf := wellFormed_translate s hs dx dy dz
  have hinv := (translate_count s hs hc dx dy dz).1
  have hcells : ∀ p : Int × Int × Int, outOfExtents s.sizeX s.sizeY s.sizeZ p.1 p.2.1 p.2.2 = false →
      cellAt s.sizeX s.sizeY (s.translate dx dy dz).1.firstBuffer p = default := by
    intro p hp
    by_cases hd : dx = 0 ∧ dy = 0 ∧ dz = 0
    · exfalso
      obtain ⟨rfl, rfl, rfl⟩ := hd
      have hin := outOfExtents_eq_false.1 hp
      simp only [abs_zero] at hbig
      omega
    · rw [translate_cellAt s hs dx dy dz hd p hp,
        if_pos (outOfExtents_of_large _ _ _ dx dy dz hbig p hp).2]
  have hzero : countNonEmpty (s.translate dx dy dz).1.firstBuffer = 0 := by
    have h := countNonEmpty_eq_filter_loopCoords hwf.sizeX_nonneg hwf.sizeY_nonneg
      hwf.sizeZ_nonneg (s.translate dx dy dz).1.firstBuffer hwf.first_length
    rw [h, List.length_eq_zero, List.filter_eq_nil_iff]
    intro p hp
    simp only [hsz.1, hsz.2.1, hsz.2.2] at hp ⊢
    rw [hcells p (mem_loopCoords.1 hp)]
    simp
  have hcalls : s.outCallback = true → (s.translate dx dy dz).2 =
      ((loopCoords s.sizeX s.sizeY s.sizeZ).filter fun p =>
        decide (cellAt s.sizeX s.sizeY s.firstBuffer p ≠ default)).map (outCallAt s) := by
    intro hcb
    by_cases hd : dx = 0 ∧ dy = 0 ∧ dz = 0
    · obtain ⟨rfl, rfl, rfl⟩ := hd
      rw [translate_eq_of_zero]
      have hnil : loopCoords s.sizeX s.sizeY s.sizeZ = [] := by
        rw [List.eq_nil_iff_forall_not_mem]
        intro p hp
        have hin := outOfExtents_eq_false.1 (mem_loopCoords.1 hp)
        simp only [abs_zero] at hbig
        omega
      rw [hnil]
      rfl
    · rw [translate_calls s dx dy dz hd, hcb, if_pos rfl, hfilter]
  have hsilent : s.outCallback = false → (s.translate dx dy dz).2 = [] := by
    intro hno
    by_cases hd : dx = 0 ∧ dy = 0 ∧ dz = 0
    · obtain ⟨rfl, rfl, rfl⟩ := hd
      rw [translate_eq_of_zero]
    · rw [translate_calls s dx dy dz hd, hno]
      rfl
  refine ⟨?_, hzero, ?_, fun hcb => ⟨hcalls hcb, ?_⟩, hsilent⟩
  · intro x y z
    rw [get_eq_cellAt]
    split
    · rfl
    · rename_i ho
      simp only [hsz.1, hsz.2.1, hsz.2.2] at ho ⊢
      exact hcells _ (by simpa using ho)
  · show (s.translate dx dy dz).1.valuesCount = 0
    rw [hinv, hzero]
  · rw [hcalls hcb, List.length_map, ← hcountAll]
    exact hc.symm

theorem translate_large_empties_witness :
    WellFormed grid311 ∧ grid311.count = countNonEmpty grid311.firstBuffer ∧
      (grid311.sizeX ≤ |(-3 : Int)| ∨ grid311.sizeY ≤ |(0 : Int)| ∨ grid311.sizeZ ≤ |(0 : Int)|) ∧
      grid311.outCallback = true ∧
      (∀ x y z, (grid311.translate (-3) 0 0).1.get x y z = default) ∧
      (grid311.translate (-3) 0 0).1.count = 0 ∧
      (grid311.translate (-3) 0 0).2.length = grid311.count ∧
      (grid311.translate (-3) 0 0).2 = [⟨0, 0, 0, 4⟩] :=
  ⟨wellFormed_grid311, by decide, Or.inl (by decide), by decide,
    (translate_large_empties grid311 wellFormed_grid311 (by decide) (-3) 0 0
      (Or.inl (by decide))).1,
    (translate_large_empties grid311 wellFormed_grid311 (by decide) (-3) 0 0
      (Or.inl (by decide))).2.2.1,
    ((translate_large_empties grid311 wellFormed_grid311 (by decide) (-3) 0 0
      (Or.inl (by decide))).2.2.2.1 (by decide)).2,
    by decide⟩

end TranslateLarge

/-! ## C17: what the copy loop of `resize` leaves in the new buffer -/

section ResizeCells

variable [Cell T]

end ResizeCells

section ResizeGrow

variable [Cell T] [DecidableEq T]

end ResizeGrow

/-! ## C19: operations keep the buffers sized -/

theorem indexSafe_of_buffersSized (s : AreaMap3D T) (h : BuffersSized s) : IndexSafe s := by
  refine ⟨h, ?_, ?_⟩
  · intro x y z hin
    rw [h.first_length, h.second_length]
    exact ⟨bufIndex_lt hin, bufIndex_lt hin⟩
  · intro x y z x' y' z' hin hin' he
    exact bufIndex_inj hin hin' he

theorem buffersSized_new [Cell T] (width height length : Int) (hw : 0 ≤ width) (hh : 0 ≤ height)
    (hl : 0 ≤ length) : BuffersSized (AreaMap3D.new width height length : AreaMap3D T) :=
  ⟨hw, hh, hl, by simp [AreaMap3D.new], by simp [AreaMap3D.new]⟩

theorem buffersSized_set [Cell T] (s : AreaMap3D T) (h : BuffersSized s) (x y z : Int) (v : T) :
    BuffersSized (s.set x y z v).1 := by
  unfold AreaMap3D.set
  dsimp only
  split
  · exact h
  · exact ⟨h.sizeX_nonneg, h.sizeY_nonneg, h.sizeZ_nonneg, by simpa using h.first_length,
      h.second_length⟩

theorem buffersSized_resizeCopy [Cell T] (s : AreaMap3D T) (nx ny nz : Int) (hx : 0 ≤ nx)
    (hy : 0 ≤ ny) (hz : 0 ≤ nz) : BuffersSized (resizeCopy s nx ny nz) := by
  refine ⟨hx, hy, hz, ?_, ?_⟩
  · unfold resizeCopy
    dsimp only
    rw [foldl_resizeCopyStep_length, List.length_replicate]
  · unfold resizeCopy
    dsimp only
    rw [List.length_replicate]

section BuffersSizedOps

variable [Cell T] [DecidableEq T]

theorem buffersSized_clear (s : AreaMap3D T) (h : BuffersSized s) : BuffersSized s.clear.1 := by
  have hlen : s.clear.1.firstBuffer.length = s.firstBuffer.length := by
    unfold AreaMap3D.clear
    dsimp only
    exact foldl_clearStep_length s _ _
  exact ⟨h.sizeX_nonneg, h.sizeY_nonneg, h.sizeZ_nonneg, hlen.trans h.first_length,
    h.second_length⟩

theorem buffersSized_translate (s : AreaMap3D T) (h : BuffersSized s) (dx dy dz : Int) :
    BuffersSized (s.translate dx dy dz).1 := by
  by_cases hd : dx = 0 ∧ dy = 0 ∧ dz = 0
  · obtain ⟨rfl, rfl, rfl⟩ := hd
    rw [translate_eq_of_zero]
    exact h
  · rw [translate_eq_of_ne s dx dy dz hd]
    exact ⟨h.sizeX_nonneg, h.sizeY_nonneg, h.sizeZ_nonneg,
      (translateLoop_length s dx dy dz).trans h.second_length, h.first_length⟩

theorem buffersSized_setCenter (s : AreaMap3D T) (h : BuffersSized s) (cx cy cz : Int) :
    BuffersSized (s.setCenter cx cy cz).1 := by
  unfold AreaMap3D.setCenter
  dsimp only
  split
  · exact buffersSized_translate s h _ _ _
  · exact h

theorem buffersSized_resizeShrinkX (s : AreaMap3D T) (h : BuffersSized s) (n : Int) :
    BuffersSized (resizeShrinkX s n).1 := by
  unfold resizeShrinkX
  split
  · simp only [andThen_fst]
    exact buffersSized_translate _ (buffersSized_translate _ (buffersSized_translate _ h _ _ _)
      _ _ _) _ _ _
  · exact h

theorem buffersSized_resizeShrinkY (s : AreaMap3D T) (h : BuffersSized s) (n : Int) :
    BuffersSized (resizeShrinkY s n).1 := by
  unfold resizeShrinkY
  split
  · simp only [andThen_fst]
    exact buffersSized_translate _ (buffersSized_translate _ (buffersSized_translate _ h _ _ _)
      _ _ _) _ _ _
  · exact h

theorem buffersSized_resizeShrinkZ (s : AreaMap3D T) (h : BuffersSized s) (n : Int) :
    BuffersSized (resizeShrinkZ s n).1 := by
  unfold resizeShrinkZ
  split
  · simp only [andThen_fst]
    exact buffersSized_translate _ (buffersSized_translate _ (buffersSized_translate _ h _ _ _)
      _ _ _) _ _ _
  · exact h

theorem buffersSized_resizeShrunk (s : AreaMap3D T) (h : BuffersSized s) (nx ny nz : Int) :
    BuffersSized (resizeShrunk s nx ny nz) := by
  unfold resizeShrunk
  simp only [andThen_fst]
  exact buffersSized_resizeShrinkZ _ (buffersSized_resizeShrinkY _
    (buffersSized_resizeShrinkX s h nx) ny) nz

theorem resizeShrunk_sizes (s : AreaMap3D T) (nx ny nz : Int) :
    (resizeShrunk s nx ny nz).sizeX = s.sizeX ∧ (resizeShrunk s nx ny nz).sizeY = s.sizeY ∧
      (resizeShrunk s nx ny nz).sizeZ = s.sizeZ := by
  unfold resizeShrunk
  simp only [andThen_fst, resizeShrinkX_frame, resizeShrinkY_frame, resizeShrinkZ_frame]
  exact ⟨trivial, trivial, trivial⟩

theorem resize_eq_resizeCopy_resizeShrunk (s : AreaMap3D T) (nx ny nz : Int) :
    (s.resize nx ny nz).1 = resizeCopy (resizeShrunk s nx ny nz) nx ny nz := rfl

end BuffersSizedOps

/-! ## C19: the reachable states -/

theorem set_sizes [Cell T] (s : AreaMap3D T) (x y z : Int) (v : T) :
    (s.set x y z v).1.sizeX = s.sizeX ∧ (s.set x y z v).1.sizeY = s.sizeY ∧
      (s.set x y z v).1.sizeZ = s.sizeZ := by
  unfold AreaMap3D.set
  dsimp only
  split <;> exact ⟨rfl, rfl, rfl⟩

section IndexBounds

variable [Cell T] [DecidableEq T]

theorem setCenter_sizes (s : AreaMap3D T) (cx cy cz : Int) :
    (s.setCenter cx cy cz).1.sizeX = s.sizeX ∧ (s.setCenter cx cy cz).1.sizeY = s.sizeY ∧
      (s.setCenter cx cy cz).1.sizeZ = s.sizeZ := by
  unfold AreaMap3D.setCenter
  dsimp only
  split
  · exact translate_sizes s _ _ _
  · exact ⟨rfl, rfl, rfl⟩

/-- In a reachable state the buffers have the size of the extents, and the number of cells
is one an `int` holds. -/
theorem buffersSized_of_reachableInt (s : AreaMap3D T) (h : ReachableInt s) :
    BuffersSized s ∧ s.sizeX * s.sizeY * s.sizeZ ≤ intMax := by
  induction h with
  | new w hh l s hw hh' hl hv hnew =>
    rw [new32_eq_new w hh l hw hh' hl hv] at hnew
    have hs : AreaMap3D.new w hh l = s := Option.some.inj hnew
    subst hs
    exact ⟨buffersSized_new w hh l hw hh' hl, hv⟩
  | set s x y z v _ ih =>
    refine ⟨buffersSized_set s ih.1 x y z v, ?_⟩
    rw [(set_sizes s x y z v).1, (set_sizes s x y z v).2.1, (set_sizes s x y z v).2.2]
    exact ih.2
  | setOutCallback s _ ih =>
    exact ⟨⟨ih.1.sizeX_nonneg, ih.1.sizeY_nonneg, ih.1.sizeZ_nonneg, ih.1.first_length,
      ih.1.second_length⟩, ih.2⟩
  | clear s _ ih => exact ⟨buffersSized_clear s ih.1, ih.2⟩
  | setCenter s cx cy cz _ ih =>
    refine ⟨buffersSized_setCenter s ih.1 cx cy cz, ?_⟩
    rw [(setCenter_sizes s cx cy cz).1, (setCenter_sizes s cx cy cz).2.1,
      (setCenter_sizes s cx cy cz).2.2]
    exact ih.2
  | resize s nx ny nz _ hx hy hz hv _ =>
    refine ⟨?_, ?_⟩
    · rw [resize_eq_resizeCopy_resizeShrunk]
      exact buffersSized_resizeCopy _ nx ny nz hx hy hz
    · rw [(resize_frame s nx ny nz).2.2.2.1, (resize_frame s nx ny nz).2.2.2.2.1,
        (resize_frame s nx ny nz).2.2.2.2.2]
      exact hv

/-- C19, counterexample: the constructor call with the non-negative extents
(65536, 65536, 1), whose product 2^32 is 0 as an `int`, returns a grid whose two buffers
have no cell, not `sizeX*sizeY*sizeZ`, while the local position (0,0,0) is inside the
extents and world coordinate (0,0,0) inside the window: its index 0 is not below the length
of the buffer. -/
theorem buffer_indexing_counterexample :
    (0 : Int) ≤ 65536 ∧ (0 : Int) ≤ 1 ∧
      (AreaMap3D.new32 65536 65536 1 : Option (AreaMap3D Int)) = some gridOverflow ∧
      gridOverflow.firstBuffer.length = 0 ∧ gridOverflow.secondBuffer.length = 0 ∧
      (gridOverflow.sizeX * gridOverflow.sizeY * gridOverflow.sizeZ).toNat = 4294967296 ∧
      gridOverflow.isInside32 0 0 0 = true ∧
      outOfExtents gridOverflow.sizeX gridOverflow.sizeY gridOverflow.sizeZ 0 0 0 = false ∧
      bufIndex gridOverflow.sizeX gridOverflow.sizeY 0 0 0 = 0 ∧
      ¬ (bufIndex gridOverflow.sizeX gridOverflow.sizeY 0 0 0 <
        gridOverflow.firstBuffer.length) := by
  decide

/-- C19, amended: in every state reachable from a constructor call with non-negative extents
whose product an `int` holds, through `set`, `setOutCallback`, `clear`, `setCenter` and
`resize` to non-negative extents whose product an `int` holds, both buffers hold exactly
`sizeX*sizeY*sizeZ` cells, every index computed from a local position inside the extents is
computed without overflow and is below the length of either buffer, and different positions
have different indices.  The same holds of every state a `translate` call leaves when started
on such a state and of the state the shrinking blocks of `resize` leave; the copy loop of
`resize` reads the old buffer and writes the new one below their lengths, at indices that
differ for different loop positions. -/
theorem buffer_indexing_in_bounds (s : AreaMap3D T) (h : ReachableInt s) :
    IndexSafe s ∧
      s.sizeX * s.sizeY * s.sizeZ ≤ intMax ∧
      (∀ x y z : Int, outOfExtents s.sizeX s.sizeY s.sizeZ x y z = false →
        0 ≤ z * s.sizeY * s.sizeX + y * s.sizeX + x ∧
          z * s.sizeY * s.sizeX + y * s.sizeX + x ≤ intMax ∧
          wrapInt (z * s.sizeY * s.sizeX + y * s.sizeX + x) =
            z * s.sizeY * s.sizeX + y * s.sizeX + x ∧
          bufIndex32 s.sizeX s.sizeY x y z = bufIndex s.sizeX s.sizeY x y z) ∧
      (∀ t : AreaMap3D T, IndexSafe t → ∀ dx dy dz, IndexSafe (t.translate dx dy dz).1) ∧
      (∀ p ∈ loopCoords s.sizeX s.sizeY s.sizeZ,
        bufIndex s.sizeX s.sizeY p.1 p.2.1 p.2.2 < s.firstBuffer.length) ∧
      (∀ nx ny nz : Int, 0 ≤ nx → 0 ≤ ny → 0 ≤ nz → nx * ny * nz ≤ intMax →
        IndexSafe (resizeShrunk s nx ny nz) ∧
        wrapInt (wrapInt (nx * ny) * nz) = nx * ny * nz ∧
        (s.resize nx ny nz).1.firstBuffer.length = (nx * ny * nz).toNat ∧
        (s.resize nx ny nz).1.secondBuffer.length = (nx * ny * nz).toNat ∧
        (∀ p ∈ loopCoords (min (resizeShrunk s nx ny nz).sizeX nx)
            (min (resizeShrunk s nx ny nz).sizeY ny) (min (resizeShrunk s nx ny nz).sizeZ nz),
          bufIndex (resizeShrunk s nx ny nz).sizeX (resizeShrunk s nx ny nz).sizeY
              p.1 p.2.1 p.2.2 < (resizeShrunk s nx ny nz).firstBuffer.length ∧
            bufIndex nx ny p.1 p.2.1 p.2.2 < (nx * ny * nz).toNat ∧
            ∀ q ∈ loopCoords (min (resizeShrunk s nx ny nz).sizeX nx)
                (min (resizeShrunk s nx ny nz).sizeY ny) (min (resizeShrunk s nx ny nz).sizeZ nz),
              bufIndex nx ny p.1 p.2.1 p.2.2 = bufIndex nx ny q.1 q.2.1 q.2.2 → p = q)) := by
  obtain ⟨hs, hvol⟩ := buffersSized_of_reachableInt s h
  refine ⟨indexSafe_of_buffersSized s hs, hvol, ?_, ?_, ?_, ?_⟩
  · intro x y z hin
    obtain ⟨⟨hx, hxn⟩, ⟨hy, hyn⟩, hz, hzn⟩ := outOfExtents_eq_false.1 hin
    have h0 := index_nonneg hx hxn hy hyn hz
    have h1 := index_lt hx hxn hy hyn hzn
    have h2 : z * s.sizeY * s.sizeX + y * s.sizeX + x ≤ intMax := by omega
    exact ⟨h0, h2, wrapInt_eq_self _ (by unfold intMin; omega) h2,
      bufIndex32_eq_bufIndex hvol hin⟩
  · intro t ht dx dy dz
    exact indexSafe_of_buffersSized _ (buffersSized_translate t ht.1 dx dy dz)
  · intro p hp
    rw [hs.first_length]
    exact bufIndex_lt (mem_loopCoords.1 hp)
  · intro nx ny nz hx hy hz hv
    have ht := buffersSized_resizeShrunk s hs nx ny nz
    have hnew := buffersSized_resizeCopy (resizeShrunk s nx ny nz) nx ny nz hx hy hz
    have h0 : 0 ≤ nx * ny * nz := mul_nonneg (mul_nonneg hx hy) hz
    refine ⟨indexSafe_of_buffersSized _ ht, ?_, ?_, ?_, ?_⟩
    · rw [wrapInt_mul_wrapInt]
      exact wrapInt_eq_self _ (by unfold intMin; omega) hv
    · rw [resize_eq_resizeCopy_resizeShrunk]
      exact hnew.first_length
    · rw [resize_eq_resizeCopy_resizeShrunk]
      exact hnew.second_length
    · intro p hp
      obtain ⟨hp1, hp2⟩ := mem_loopCoords_min.1 hp
      refine ⟨?_, bufIndex_lt hp2, ?_⟩
      · rw [ht.first_length]
        exact bufIndex_lt hp1
      · intro q hq he
        obtain ⟨h1, h2, h3⟩ := bufIndex_inj hp2 (mem_loopCoords_min.1 hq).2 he
        exact Prod.ext h1 (Prod.ext h2 h3)

theorem reachableInt_grid333 : ReachableInt grid333 :=
  ReachableInt.set _ 1 1 1 7
    (ReachableInt.new 3 3 3 _ (by decide) (by decide) (by decide) (by decide)
      (new32_eq_new 3 3 3 (by decide) (by decide) (by decide) (by decide)))

theorem buffer_indexing_in_bounds_witness :
    ReachableInt ((grid333.setCenter 1 2 2).1.resize 2 0 2).1 ∧
      IndexSafe ((grid333.setCenter 1 2 2).1.resize 2 0 2).1 ∧
      ((grid333.setCenter 1 2 2).1.resize 2 0 2).1.firstBuffer.length = 0 ∧
      ReachableInt (grid333.setCenter 1 2 2).1 ∧
      IndexSafe (grid333.setCenter 1 2 2).1 ∧
      (grid333.setCenter 1 2 2).1.firstBuffer.length = 27 ∧
      (grid333.setCenter 1 2 2).1.secondBuffer.length = 27 ∧
      (AreaMap3D.new32 3 3 3 : Option (AreaMap3D Int)) = some (AreaMap3D.new 3 3 3) :=
  ⟨ReachableInt.resize _ 2 0 2 (ReachableInt.setCenter _ 1 2 2 reachableInt_grid333)
      (by decide) (by decide) (by decide) (by decide),
    (buffer_indexing_in_bounds _
      (ReachableInt.resize _ 2 0 2 (ReachableInt.setCenter _ 1 2 2 reachableInt_grid333)
        (by decide) (by decide) (by decide) (by decide))).1,
    by decide,
    ReachableInt.setCenter _ 1 2 2 reachableInt_grid333,
    (buffer_indexing_in_bounds _ (ReachableInt.setCenter _ 1 2 2 reachableInt_grid333)).1,
    by decide, by decide, by decide⟩

end IndexBounds

/-! ## C13: the read accessors in `int` arithmetic -/

/-- When the three subtractions do not overflow, `isInside` in `int` arithmetic is the
exact one; when moreover the product of the extents is one an `int` holds, so are `getIf`
and `get`. -/
theorem accessors32_eq [Cell T] (s : AreaMap3D T) (x y z : Int)
    (hx : intMin ≤ x - s.offsetX ∧ x - s.offsetX ≤ intMax)
    (hy : intMin ≤ y - s.offsetY ∧ y - s.offsetY ≤ intMax)
    (hz : intMin ≤ z - s.offsetZ ∧ z - s.offsetZ ≤ intMax) :
    s.isInside32 x y z = s.isInside x y z ∧
      (s.sizeX * s.sizeY * s.sizeZ ≤ intMax →
        s.getIf32 x y z = s.getIf x y z ∧ s.get32 x y z = s.get x y z) := by
  unfold AreaMap3D.isInside32 AreaMap3D.isInside AreaMap3D.getIf32 AreaMap3D.getIf
    AreaMap3D.get32 AreaMap3D.get
  rw [wrapInt_eq_self _ hx.1 hx.2, wrapInt_eq_self _ hy.1 hy.2, wrapInt_eq_self _ hz.1 hz.2]
  refine ⟨rfl, fun hvol => ?_⟩
  dsimp only
  by_cases ho : outOfExtents s.sizeX s.sizeY s.sizeZ (x - s.offsetX) (y - s.offsetY)
      (z - s.offsetZ) = true
  · rw [if_pos ho, if_pos ho, if_pos ho, if_pos ho]
    exact ⟨rfl, rfl⟩
  · have ho' : outOfExtents s.sizeX s.sizeY s.sizeZ (x - s.offsetX) (y - s.offsetY)
        (z - s.offsetZ) = false := by simpa using ho
    rw [if_neg ho, if_neg ho, if_neg ho, if_neg ho, bufIndex32_eq_bufIndex hvol ho']
    exact ⟨rfl, rfl⟩

/-- C13, counterexample: on the (3,1,1) grid whose offset `setCenter(2147483647, 0, 0)` has
moved to (2147483646, 0, 0), `isInside(-2147483648, 0, 0)` is true, because the subtraction
`x - offsetX` gives 2 in `int`, although -2147483648 is below `offsetX`. -/
theorem isInside_counterexample :
    gridAtIntMax.offsetX = 2147483646 ∧ gridAtIntMax.sizeX = 3 ∧
      intMin ≤ (-2147483648 : Int) ∧ (-2147483648 : Int) ≤ intMax ∧
      wrapInt (-2147483648 - gridAtIntMax.offsetX) = 2 ∧
      gridAtIntMax.isInside32 (-2147483648) 0 0 = true ∧
      ¬ ((gridAtIntMax.offsetX ≤ -2147483648 ∧
          -2147483648 < gridAtIntMax.offsetX + gridAtIntMax.sizeX) ∧
        (gridAtIntMax.offsetY ≤ 0 ∧ 0 < gridAtIntMax.offsetY + gridAtIntMax.sizeY) ∧
        (gridAtIntMax.offsetZ ≤ 0 ∧ 0 < gridAtIntMax.offsetZ + gridAtIntMax.sizeZ)) := by
  decide

/-- C13, amended: `isInside(x,y,z)` holds iff the three local coordinates, the differences
`coordinate - offset` taken in `int`, are in `[0, size)`; when the three differences do not
overflow this is `offset <= coordinate < offset + size` on each axis.  `getIf(x,y,z)` is
absent iff `isInside(x,y,z)` is false, when present it is the cell of the active buffer at
index `lz*sizeY*sizeX + ly*sizeX + lx` taken in `int`, which is the exact index when the
product of the extents is one an `int` holds, and `get(x,y,z)` is that cell when `getIf` is
present and `T{}` otherwise. -/
theorem read_accessors_agree [Cell T] (s : AreaMap3D T) (x y z : Int) :
    (s.isInside32 x y z = true ↔
      (0 ≤ wrapInt (x - s.offsetX) ∧ wrapInt (x - s.offsetX) < s.sizeX) ∧
        (0 ≤ wrapInt (y - s.offsetY) ∧ wrapInt (y - s.offsetY) < s.sizeY) ∧
        (0 ≤ wrapInt (z - s.offsetZ) ∧ wrapInt (z - s.offsetZ) < s.sizeZ)) ∧
      ((intMin ≤ x - s.offsetX ∧ x - s.offsetX ≤ intMax) →
        (intMin ≤ y - s.offsetY ∧ y - s.offsetY ≤ intMax) →
        (intMin ≤ z - s.offsetZ ∧ z - s.offsetZ ≤ intMax) →
        (s.isInside32 x y z = true ↔
          (s.offsetX ≤ x ∧ x < s.offsetX + s.sizeX) ∧
            (s.offsetY ≤ y ∧ y < s.offsetY + s.sizeY) ∧
            (s.offsetZ ≤ z ∧ z < s.offsetZ + s.sizeZ))) ∧
      (s.getIf32 x y z = none ↔ s.isInside32 x y z = false) ∧
      (s.isInside32 x y z = true →
        s.getIf32 x y z = some (s.firstBuffer.getD
          (bufIndex32 s.sizeX s.sizeY (wrapInt (x - s.offsetX)) (wrapInt (y - s.offsetY))
            (wrapInt (z - s.offsetZ))) default)) ∧
      (s.sizeX * s.sizeY * s.sizeZ ≤ intMax → s.isInside32 x y z = true →
        bufIndex32 s.sizeX s.sizeY (wrapInt (x - s.offsetX)) (wrapInt (y - s.offsetY))
            (wrapInt (z - s.offsetZ)) =
          (wrapInt (z - s.offsetZ) * s.sizeY * s.sizeX + wrapInt (y - s.offsetY) * s.sizeX +
            wrapInt (x - s.offsetX)).toNat) ∧
      s.get32 x y z = (match s.getIf32 x y z with
        | some value => value
        | none => default) := by
  have hexact : (intMin ≤ x - s.offsetX ∧ x - s.offsetX ≤ intMax) →
      (intMin ≤ y - s.offsetY ∧ y - s.offsetY ≤ intMax) →
      (intMin ≤ z - s.offsetZ ∧ z - s.offsetZ ≤ intMax) →
      (s.isInside32 x y z = true ↔
        (s.offsetX ≤ x ∧ x < s.offsetX + s.sizeX) ∧
          (s.offsetY ≤ y ∧ y < s.offsetY + s.sizeY) ∧
          (s.offsetZ ≤ z ∧ z < s.offsetZ + s.sizeZ)) := by
    intro hx hy hz
    rw [(accessors32_eq s x y z hx hy hz).1]
    exact (read_accessors_exact s x y z).1
  have hinside : s.isInside32 x y z = true ↔
      outOfExtents s.sizeX s.sizeY s.sizeZ (wrapInt (x - s.offsetX)) (wrapInt (y - s.offsetY))
        (wrapInt (z - s.offsetZ)) = false := by
    unfold AreaMap3D.isInside32
    dsimp only
    rw [Bool.not_eq_true']
  refine ⟨?_, hexact, ?_, ?_, ?_, ?_⟩
  · rw [hinside, outOfExtents_eq_false]
  · unfold AreaMap3D.isInside32 AreaMap3D.getIf32
    dsimp only
    by_cases ho : outOfExtents s.sizeX s.sizeY s.sizeZ (wrapInt (x - s.offsetX))
        (wrapInt (y - s.offsetY)) (wrapInt (z - s.offsetZ)) = true
    · simp [ho]
    · have ho' : outOfExtents s.sizeX s.sizeY s.sizeZ (wrapInt (x - s.offsetX))
          (wrapInt (y - s.offsetY)) (wrapInt (z - s.offsetZ)) = false := by simpa using ho
      simp [ho']
  · intro hin
    have ho := hinside.1 hin
    unfold AreaMap3D.getIf32
    dsimp only
    rw [if_neg (by rw [ho]; exact Bool.false_ne_true)]
  · intro hvol hin
    exact bufIndex32_eq_bufIndex hvol (hinside.1 hin)
  · unfold AreaMap3D.getIf32 AreaMap3D.get32
    dsimp only
    by_cases ho : outOfExtents s.sizeX s.sizeY s.sizeZ (wrapInt (x - s.offsetX))
        (wrapInt (y - s.offsetY)) (wrapInt (z - s.offsetZ)) = true
    · rw [if_pos ho, if_pos ho]
    · rw [if_neg ho, if_neg ho]

theorem read_accessors_agree_witness :
    (intMin ≤ 1 - grid333.offsetX ∧ 1 - grid333.offsetX ≤ intMax) ∧
      (intMin ≤ 1 - grid333.offsetY ∧ 1 - grid333.offsetY ≤ intMax) ∧
      (intMin ≤ 1 - grid333.offsetZ ∧ 1 - grid333.offsetZ ≤ intMax) ∧
      (grid333.isInside32 1 1 1 = true ↔
        (grid333.offsetX ≤ 1 ∧ 1 < grid333.offsetX + grid333.sizeX) ∧
          (grid333.offsetY ≤ 1 ∧ 1 < grid333.offsetY + grid333.sizeY) ∧
          (grid333.offsetZ ≤ 1 ∧ 1 < grid333.offsetZ + grid333.sizeZ)) ∧
      grid333.isInside32 1 1 1 = true ∧ grid333.getIf32 1 1 1 = some 7 ∧
      grid333.get32 1 1 1 = 7 :=
  ⟨by decide, by decide, by decide,
    (read_accessors_agree grid333 1 1 1).2.1 (by decide) (by decide) (by decide),
    by decide, by decide, by decide⟩

end util
